import Mathlib

/-!
Verification of the storage consistency and quota-accounting engine of
Hasankhan99/Storage-as-service (src/app/main.py, src/app/auth.py).

The Python service keeps three records in sync: raw blobs on disk, per-file
metadata documents (the `files` collection), and per-bucket cached aggregates
(`file_count`, `total_size` on documents of the `buckets` collection), with a
per-user byte quota.

This file shallowly embeds the relevant endpoints as pure Lean functions over
an explicit system state:

* strings are `List Char` (written with the helper `str`), byte payloads are
  `List Nat` (only lengths and identity of payloads matter to the engine);
* the two MongoDB collections are Lean lists of documents; `insert_one`
  prepends, `find_one` is `List.find?`, `delete_one` is `List.eraseP`, a
  `$inc` update via the unique `_id` is a `List.map` guarded on the id;
* the filesystem is an association list from path strings to payloads plus a
  list of existing bucket directories; `os.path.join`, `os.path.exists`,
  `os.path.getsize`, `os.remove`, `os.makedirs` and `shutil.rmtree` are
  modelled on those. The model's filesystem holds exactly what the engine
  has written: it is the service's storage tree of a fresh deployment,
  empty at start, so `os.path.exists` is blob presence. Paths outside the
  storage tree (which may pre-exist in a deployed container, e.g.
  `/etc/passwd`) are outside the model, and no theorem or counterexample
  below evaluates the engine at such a path. A blob write itself is
  modelled as always succeeding (paths are opaque keys); injected failures
  in the upload write path are modelled separately by
  `upload_file_failing`;
* every operation returns the successor state together with an optional error
  from the taxonomy (`InvalidName`/400, `AlreadyExists`/409, `NotFound`/404,
  `QuotaExceeded`/413, `StorageError`/500), mirroring the `HTTPException`s
  raised by the endpoints.
-/

/-- Python strings, as lists of characters. -/
abbrev Str := List Char

/-- Uploaded byte payloads; only length and identity matter to the engine. -/
abbrev Bytes := List Nat

/-- Convert a Lean string literal into the `Str` representation. -/
def str (s : String) : Str := s.data

/-- A document of the `buckets` collection (main.py, `create_bucket`):
`{name, user_id, file_count, total_size}` plus the generated `_id`.
The aggregates are integers because MongoDB `$inc` may drive them negative;
`description` and `created_at` carry no engine logic and are omitted. -/
structure BucketDoc where
  id : Nat
  name : Str
  userId : Str
  fileCount : Int
  totalSize : Int
deriving DecidableEq, Repr

/-- A document of the `files` collection (main.py, `upload_file`):
`{filename, bucket_id, bucket_name, user_id, size, file_path}` plus the
generated `_id`; `content_type` and `uploaded_at` carry no engine logic. -/
structure FileDoc where
  id : Nat
  filename : Str
  bucketId : Nat
  bucketName : Str
  userId : Str
  size : Nat
  filePath : Str
deriving DecidableEq, Repr

/-- The state touched by the storage engine: the two metadata collections,
the blobs on disk (path ↦ bytes), the existing bucket directories, and the
id generator for MongoDB `_id`s. -/
structure SysState where
  buckets : List BucketDoc
  files : List FileDoc
  blobs : List (Str × Bytes)
  dirs : List Str
  nextId : Nat
deriving DecidableEq, Repr

/-- Fresh deployment: empty collections, empty storage. -/
def initState : SysState := ⟨[], [], [], [], 0⟩

/-- Error taxonomy, mirroring the HTTP status codes raised by main.py:
400 invalid name, 409 already exists, 404 not found, 413 quota, 500 storage. -/
inductive ApiError where
  | invalidName
  | alreadyExists
  | notFound
  | quotaExceeded
  | storageError
deriving DecidableEq, Repr

/-! ## auth.py: quota ledger -/

/-- auth.py line 15: `STORAGE_LIMIT_BYTES = 1 * 1024 * 1024 * 1024`. -/
def STORAGE_LIMIT_BYTES : Nat := 1 * 1024 * 1024 * 1024

/-- auth.py `get_user_storage_usage`: sum of `size` over the user's
FileRecords (aggregation over `files` matching `user_id`). -/
def get_user_storage_usage (s : SysState) (userId : Str) : Nat :=
  ((s.files.filter fun f => f.userId = userId).map (·.size)).sum

/-- auth.py `check_storage_limit`:
`(current_usage + file_size) <= STORAGE_LIMIT_BYTES`. -/
def check_storage_limit (s : SysState) (userId : Str) (fileSize : Nat) : Bool :=
  get_user_storage_usage s userId + fileSize ≤ STORAGE_LIMIT_BYTES

/-! ## Paths (os.path, POSIX) -/

/-- main.py line 23: `STORAGE_PATH = "/app/storage"` (default). -/
def STORAGE_PATH : Str := str "/app/storage"

/-- Two-argument POSIX `os.path.join`: an absolute second component replaces
the first; otherwise a separator is inserted unless one is already there. -/
def ospJoin (a b : Str) : Str :=
  if b.head? = some '/' then b
  else if a = [] ∨ a.getLast? = some '/' then a ++ b
  else a ++ '/' :: b

/-- main.py: `os.path.join(STORAGE_PATH, str(user_id), name)` — the bucket's
directory. -/
def bucketPathOf (userId name : Str) : Str :=
  ospJoin (ospJoin STORAGE_PATH userId) name

/-- main.py: `os.path.join(bucket_path, file.filename)` — a file's blob
location. -/
def filePathOf (userId bucketName filename : Str) : Str :=
  ospJoin (bucketPathOf userId bucketName) filename

/-! ## Filesystem model -/

/-- Blob at a path, if any (`os.path.exists` / reading the file). -/
def blobLookup (bs : List (Str × Bytes)) (p : Str) : Option Bytes :=
  (bs.find? fun e => e.1 = p).map (·.2)

/-- Writing a new file (`open(path, "wb").write(content)`). -/
def blobWrite (bs : List (Str × Bytes)) (p : Str) (content : Bytes) :
    List (Str × Bytes) :=
  (p, content) :: bs

/-- `os.remove(path)` (removing all entries at the path; a no-op if absent). -/
def blobRemove (bs : List (Str × Bytes)) (p : Str) : List (Str × Bytes) :=
  bs.filter fun e => ¬ e.1 = p

/-- Is `p` strictly below directory `dirPath`? -/
def isUnder (dirPath p : Str) : Bool :=
  (dirPath ++ ['/']).isPrefixOf p

/-- `shutil.rmtree(dirPath)`, blob part: every file below the directory is
removed. -/
def rmtreeBlobs (bs : List (Str × Bytes)) (dirPath : Str) : List (Str × Bytes) :=
  bs.filter fun e => ¬ isUnder dirPath e.1

/-- `shutil.rmtree(dirPath)`, directory part: the directory and everything
below it is removed. -/
def rmtreeDirs (ds : List Str) (dirPath : Str) : List Str :=
  ds.filter fun d => ¬ (d = dirPath ∨ isUnder dirPath d = true)

/-! ## Name validation (create_bucket, main.py lines 229-237) -/

/-- Python `name.strip()`: drop leading and trailing whitespace. -/
def pyStrip (s : Str) : Str :=
  ((s.dropWhile Char.isWhitespace).reverse.dropWhile Char.isWhitespace).reverse

/-- Python `name.replace("-", "").replace("_", "")`. -/
def stripHyphensUnderscores (s : Str) : Str :=
  s.filter fun c => ¬ (c = '-' ∨ c = '_')

/-- Python `str.isalnum()`: non-empty and every character alphanumeric.
The repository's inputs of interest are ASCII, where Python's Unicode-aware
test coincides with `Char.isAlphanum`. -/
def pyIsalnum (s : Str) : Bool :=
  ¬ s.isEmpty && s.all Char.isAlphanum

/-! ## Storage engine operations (main.py) -/

/-- `buckets_collection.find_one({"name": name, "user_id": user_id})`. -/
def findBucket (s : SysState) (userId name : Str) : Option BucketDoc :=
  s.buckets.find? fun b => decide (b.name = name ∧ b.userId = userId)

/-- `files_collection.find_one({"bucket_id": bucket_id, "filename": filename})`. -/
def findFile (s : SysState) (bucketId : Nat) (filename : Str) : Option FileDoc :=
  s.files.find? fun f => decide (f.bucketId = bucketId ∧ f.filename = filename)

/-- `create_bucket` (main.py lines 222-275): validate the name, reject a
duplicate (owner, name), create the directory (`os.makedirs` with
`exist_ok=False`; on failure the handler removes `bucket_path` and reports a
500), then insert the bucket document with zeroed aggregates. -/
def create_bucket (s : SysState) (userId name : Str) :
    SysState × Option ApiError :=
  if name.isEmpty ∨ (pyStrip name).isEmpty then (s, some .invalidName)
  else if ¬ pyIsalnum (stripHyphensUnderscores name) then (s, some .invalidName)
  else
    let bucket_path := bucketPathOf userId name
    match findBucket s userId name with
    | some _ => (s, some .alreadyExists)
    | none =>
      if bucket_path ∈ s.dirs then
        ({ s with blobs := rmtreeBlobs s.blobs bucket_path,
                  dirs := rmtreeDirs s.dirs bucket_path }, some .storageError)
      else
        ({ s with
            dirs := bucket_path :: s.dirs,
            buckets := { id := s.nextId, name := name, userId := userId,
                         fileCount := 0, totalSize := 0 } :: s.buckets,
            nextId := s.nextId + 1 }, none)

/-- `upload_file` (main.py lines 347-422), failure-free run: resolve the
bucket, check the quota, refuse if a file already sits at the target path
(`os.path.exists`, modelled as blob presence — exact for paths inside the
service's storage tree, which starts empty), write the blob, insert the
FileRecord, and `$inc` the bucket aggregates by `(+1, +size)`. -/
def upload_file (s : SysState) (userId bucketName filename : Str)
    (content : Bytes) : SysState × Option ApiError :=
  match findBucket s userId bucketName with
  | none => (s, some .notFound)
  | some bucket =>
    let file_size := content.length
    if ¬ check_storage_limit s userId file_size then (s, some .quotaExceeded)
    else
      let file_path := filePathOf userId bucketName filename
      if (blobLookup s.blobs file_path).isSome then (s, some .alreadyExists)
      else
        let file_doc : FileDoc :=
          { id := s.nextId, filename := filename, bucketId := bucket.id,
            bucketName := bucketName, userId := userId, size := file_size,
            filePath := file_path }
        ({ s with
            blobs := blobWrite s.blobs file_path content,
            files := file_doc :: s.files,
            buckets := s.buckets.map fun b =>
              if b.id = bucket.id then
                { b with fileCount := b.fileCount + 1,
                         totalSize := b.totalSize + (file_size : Int) }
              else b,
            nextId := s.nextId + 1 }, none)

/-- Which step of the upload write path (the `try:` block of `upload_file`)
raises: the blob write, the FileRecord `insert_one`, or the aggregate
`update_one`. -/
inductive UploadFailure where
  | atBlobWrite
  | atInsert
  | atStatsUpdate
deriving DecidableEq, Repr

/-- `upload_file` with an injected failure inside the `try:` block. The
`except` handler (main.py lines 419-422) removes the target path if it exists
and reports a 500. Raising at the blob write leaves no blob; raising at
`insert_one` leaves the written blob, which the handler then deletes; raising
at the aggregate `update_one` happens after `insert_one` succeeded, so the
FileRecord stays while the handler deletes the blob. -/
def upload_file_failing (s : SysState) (userId bucketName filename : Str)
    (content : Bytes) (failAt : UploadFailure) : SysState × Option ApiError :=
  match findBucket s userId bucketName with
  | none => (s, some .notFound)
  | some bucket =>
    let file_size := content.length
    if ¬ check_storage_limit s userId file_size then (s, some .quotaExceeded)
    else
      let file_path := filePathOf userId bucketName filename
      if (blobLookup s.blobs file_path).isSome then (s, some .alreadyExists)
      else
        let file_doc : FileDoc :=
          { id := s.nextId, filename := filename, bucketId := bucket.id,
            bucketName := bucketName, userId := userId, size := file_size,
            filePath := file_path }
        match failAt with
        | .atBlobWrite =>
          ({ s with blobs := blobRemove s.blobs file_path }, some .storageError)
        | .atInsert =>
          ({ s with
              blobs := blobRemove (blobWrite s.blobs file_path content)
                file_path }, some .storageError)
        | .atStatsUpdate =>
          ({ s with
              blobs := blobRemove (blobWrite s.blobs file_path content)
                file_path,
              files := file_doc :: s.files,
              nextId := s.nextId + 1 }, some .storageError)

/-- `download_file` (main.py lines 452-479): resolve the bucket and the
FileRecord, then stream the blob at the recorded `file_path`; a missing blob
is the distinct "found metadata but missing blob" 404. -/
def download_file (s : SysState) (userId bucketName filename : Str) :
    Except ApiError Bytes :=
  match findBucket s userId bucketName with
  | none => .error .notFound
  | some bucket =>
    match findFile s bucket.id filename with
    | none => .error .notFound
    | some file_doc =>
      match blobLookup s.blobs file_doc.filePath with
      | none => .error .notFound
      | some content => .ok content

/-- `delete_file` (main.py lines 482-526): resolve the bucket and the
FileRecord; if the blob is present, measure it with `os.path.getsize` and
`os.remove` it, otherwise fall back to the recorded size; `delete_one` the
FileRecord; `$inc` the bucket aggregates by `(-1, -file_size)`. -/
def delete_file (s : SysState) (userId bucketName filename : Str) :
    SysState × Option ApiError :=
  match findBucket s userId bucketName with
  | none => (s, some .notFound)
  | some bucket =>
    match findFile s bucket.id filename with
    | none => (s, some .notFound)
    | some file_doc =>
      let file_path := file_doc.filePath
      let measured : List (Str × Bytes) × Nat :=
        match blobLookup s.blobs file_path with
        | some content => (blobRemove s.blobs file_path, content.length)
        | none => (s.blobs, file_doc.size)
      ({ s with
          blobs := measured.1,
          files := s.files.eraseP fun f => decide (f.id = file_doc.id),
          buckets := s.buckets.map fun b =>
            if b.id = bucket.id then
              { b with fileCount := b.fileCount - 1,
                       totalSize := b.totalSize - (measured.2 : Int) }
            else b }, none)

/-- The `file_size` that `delete_file` (main.py lines 504-508) subtracts from
the bucket aggregates: `os.path.getsize(file_path)` when the blob is present,
the recorded `file_doc["size"]` when it is absent. -/
def measuredSize (s : SysState) (fd : FileDoc) : Nat :=
  match blobLookup s.blobs fd.filePath with
  | some content => content.length
  | none => fd.size

/-- `delete_bucket`, step 1 (main.py line 332):
`files_collection.delete_many({"bucket_id": bucket_id})`. -/
def deleteBucketFiles (s : SysState) (bucketId : Nat) : SysState :=
  { s with files := s.files.filter fun f => ¬ f.bucketId = bucketId }

/-- `delete_bucket`, step 2 (main.py lines 335-336): `shutil.rmtree` of the
bucket directory, if present. -/
def deleteBucketBlobs (s : SysState) (bucket_path : Str) : SysState :=
  { s with blobs := rmtreeBlobs s.blobs bucket_path,
           dirs := rmtreeDirs s.dirs bucket_path }

/-- `delete_bucket`, step 3 (main.py line 339):
`buckets_collection.delete_one({"_id": bucket_id})`. -/
def deleteBucketDoc (s : SysState) (bucketId : Nat) : SysState :=
  { s with buckets := s.buckets.eraseP fun b => decide (b.id = bucketId) }

/-- `delete_bucket` (main.py lines 316-343): resolve the bucket, then delete
metadata children, then the blob subtree, then the bucket document — in that
order. -/
def delete_bucket (s : SysState) (userId bucketName : Str) :
    SysState × Option ApiError :=
  match findBucket s userId bucketName with
  | none => (s, some .notFound)
  | some bucket =>
    (deleteBucketDoc
      (deleteBucketBlobs (deleteBucketFiles s bucket.id)
        (bucketPathOf userId bucketName))
      bucket.id, none)

/-! ## Operation sequences -/

/-- One engine operation, as invoked through the API. -/
inductive Op where
  | createBucket (userId name : Str)
  | uploadFile (userId bucketName filename : Str) (content : Bytes)
  | deleteFile (userId bucketName filename : Str)
  | deleteBucket (userId bucketName : Str)
deriving DecidableEq, Repr

/-- Apply one operation. -/
def applyOp (s : SysState) : Op → SysState × Option ApiError
  | .createBucket u n => create_bucket s u n
  | .uploadFile u bn fn c => upload_file s u bn fn c
  | .deleteFile u bn fn => delete_file s u bn fn
  | .deleteBucket u bn => delete_bucket s u bn

/-- The state after an operation (errors leave their partial effects). -/
def stepOp (s : SysState) (op : Op) : SysState := (applyOp s op).1

/-- Run a sequence of operations from the fresh deployment. -/
def runOps (ops : List Op) : SysState := ops.foldl stepOp initState

/-! ## The spec's invariant I1 -/

/-- The FileRecords referencing a bucket. -/
def filesOfBucket (s : SysState) (bucketId : Nat) : List FileDoc :=
  s.files.filter fun f => f.bucketId = bucketId

/-- Spec invariant I1: every bucket's cached `file_count` equals the number
of FileRecords referencing it, and its `total_size` equals the sum of their
sizes. -/
def AggregatesOk (s : SysState) : Prop :=
  ∀ b ∈ s.buckets,
    b.fileCount = ((filesOfBucket s b.id).length : Int) ∧
    b.totalSize = ((((filesOfBucket s b.id).map (·.size)).sum : Nat) : Int)

instance : DecidablePred AggregatesOk := fun s => by
  unfold AggregatesOk; infer_instance

/-! ## Benign inputs and the reachability invariant -/

/-- A good path segment: non-empty and free of the path separator. Real user
ids are MongoDB ObjectId hex strings and satisfy this; validated bucket names
satisfy it as well. -/
def GoodSeg (u : Str) : Prop := u ≠ [] ∧ '/' ∉ u

/-- Benign API inputs: owner ids are proper path segments and uploaded
filenames contain no path separator (the code never sanitizes filenames, so
this is an assumption on the caller, not something the code enforces). -/
def OpBenign : Op → Prop
  | .createBucket u _ => GoodSeg u
  | .uploadFile _ _ fn _ => '/' ∉ fn
  | .deleteFile _ _ _ => True
  | .deleteBucket _ _ => True

instance (op : Op) : Decidable (OpBenign op) := by
  cases op <;> unfold OpBenign GoodSeg <;> infer_instance

/-- The inductive consistency invariant of reachable states (under benign
inputs): fresh unique ids, per-owner unique bucket names, validated bucket
names, every FileRecord attached to an existing bucket with consistent
denormalized fields and a derived path, every FileRecord's blob present with
the recorded size (spec I2), distinct blob locations, every directory backed
by a bucket document, and the cached aggregates correct (spec I1). -/
def EngineInv (s : SysState) : Prop :=
  (∀ b ∈ s.buckets, b.id < s.nextId) ∧
  (∀ f ∈ s.files, f.id < s.nextId) ∧
  s.buckets.Pairwise (fun a b => a.id ≠ b.id) ∧
  s.files.Pairwise (fun a b => a.id ≠ b.id) ∧
  s.buckets.Pairwise (fun a b => ¬ (a.name = b.name ∧ a.userId = b.userId)) ∧
  (∀ b ∈ s.buckets, GoodSeg b.userId ∧ GoodSeg b.name) ∧
  (∀ f ∈ s.files,
    ∃ b ∈ s.buckets, b.id = f.bucketId ∧ b.name = f.bucketName ∧
      b.userId = f.userId) ∧
  (∀ f ∈ s.files,
    f.filePath = filePathOf f.userId f.bucketName f.filename ∧
    '/' ∉ f.filename) ∧
  (∀ f ∈ s.files, (blobLookup s.blobs f.filePath).map (·.length) = some f.size) ∧
  s.files.Pairwise (fun a b => a.filePath ≠ b.filePath) ∧
  (∀ d ∈ s.dirs, ∃ b ∈ s.buckets, d = bucketPathOf b.userId b.name) ∧
  AggregatesOk s

instance (s : SysState) : Decidable (EngineInv s) := by
  unfold EngineInv GoodSeg; infer_instance

/-! ## Spec-side definitions (for refinement comparisons) -/

/-- Modelled from the spec's words (§3): a bucket name the spec accepts,
"matches pattern `[A-Za-z0-9_-]+`, non-empty". Only compared against the
code's validator; the code is embedded separately in `create_bucket`. -/
def SpecNameAccepted (name : Str) : Prop :=
  name ≠ [] ∧ ∀ c ∈ name, (c.isAlphanum = true ∨ c = '-' ∨ c = '_')

instance (name : Str) : Decidable (SpecNameAccepted name) := by
  unfold SpecNameAccepted; infer_instance

/-! ## Concrete scenarios used by counterexamples and witnesses -/

/-- A benign-looking sequence whose only non-benign element is the
path-traversal filename `/app/storage/u1/p/x` uploaded into bucket `m`: the
blob lands inside bucket `p`'s directory, is destroyed and re-created with a
different length via bucket `p`, after which deleting the file from `m`
decrements `m`'s aggregates by the re-measured foreign size. -/
def c1Ops : List Op :=
  [ .createBucket (str "u1") (str "p")
  , .createBucket (str "u1") (str "m")
  , .uploadFile (str "u1") (str "m") (str "/app/storage/u1/p/x") [1, 1, 1, 1, 1]
  , .deleteBucket (str "u1") (str "p")
  , .createBucket (str "u1") (str "p")
  , .uploadFile (str "u1") (str "p") (str "x") [2, 2, 2, 2, 2, 2, 2]
  , .deleteFile (str "u1") (str "m") (str "/app/storage/u1/p/x") ]

/-- The first six operations of the traversal scenario, used to exhibit the
re-measured delete decrement. -/
def c5Ops : List Op :=
  [ .createBucket (str "u1") (str "p")
  , .createBucket (str "u1") (str "m")
  , .uploadFile (str "u1") (str "m") (str "/app/storage/u1/p/x") [1, 1, 1, 1, 1]
  , .deleteBucket (str "u1") (str "p")
  , .createBucket (str "u1") (str "p")
  , .uploadFile (str "u1") (str "p") (str "x") [2, 2, 2, 2, 2, 2, 2] ]

/-- A consistent-looking state at exactly the quota: one bucket of owner `u1`
holding one 1 GiB file. Uploading anything on top of it is over quota. -/
def quotaFullState : SysState :=
  { buckets := [{ id := 0, name := str "b", userId := str "u1",
                  fileCount := 1, totalSize := (STORAGE_LIMIT_BYTES : Int) }]
  , files := [{ id := 1, filename := str "f", bucketId := 0,
                bucketName := str "b", userId := str "u1",
                size := STORAGE_LIMIT_BYTES,
                filePath := filePathOf (str "u1") (str "b") (str "f") }]
  , blobs := [(filePathOf (str "u1") (str "b") (str "f"), [9, 9, 9])]
  , dirs := [bucketPathOf (str "u1") (str "b")]
  , nextId := 2 }

/-- Bucket `b` of owner `u1` with one two-byte file `f`, reached by running
the API from a fresh deployment. -/
def smallState : SysState :=
  runOps [ .createBucket (str "u1") (str "b")
         , .uploadFile (str "u1") (str "b") (str "f") [1, 2] ]

/-- Bucket `b` of owner `u1` with three files, reached by running the API
from a fresh deployment (the spec's cascade-delete scenario). -/
def threeFileState : SysState :=
  runOps [ .createBucket (str "u1") (str "b")
         , .uploadFile (str "u1") (str "b") (str "f1") [1]
         , .uploadFile (str "u1") (str "b") (str "f2") [2, 2]
         , .uploadFile (str "u1") (str "b") (str "f3") [3, 3, 3] ]

/-- A benign mixed workload: two buckets, uploads, a file deletion and a
bucket deletion. -/
def c1WitnessOps : List Op :=
  [ .createBucket (str "u1") (str "a")
  , .createBucket (str "u2") (str "b-2")
  , .uploadFile (str "u1") (str "a") (str "x.txt") [1, 2, 3]
  , .uploadFile (str "u1") (str "a") (str "y.txt") [4]
  , .uploadFile (str "u2") (str "b-2") (str "z.bin") [5, 5]
  , .deleteFile (str "u1") (str "a") (str "x.txt")
  , .deleteBucket (str "u2") (str "b-2") ]

/-! ## Character and string toolkit -/

theorem alphanum_not_whitespace {c : Char} (h : c.isAlphanum = true) :
    c.isWhitespace = false := by
  by_contra hw
  simp only [Bool.not_eq_false, Char.isWhitespace, Bool.or_eq_true,
    decide_eq_true_eq] at hw
  rcases hw with ((h1 | h2) | h3) | h4 <;>
    first
      | (subst h1; revert h; decide)
      | (subst h2; revert h; decide)
      | (subst h3; revert h; decide)
      | (subst h4; revert h; decide)

theorem alphanum_ne_sep {c : Char} (h : c.isAlphanum = true) : c ≠ '/' := by
  intro h'; subst h'; revert h; decide

theorem mem_dropWhile_of_mem {α} {p : α → Bool} {c : α} :
    ∀ {l : List α}, c ∈ l → p c = false → c ∈ l.dropWhile p
  | x :: xs, hc, hpc => by
    by_cases hx : p x
    · rw [List.dropWhile_cons_of_pos hx]
      rcases List.mem_cons.mp hc with rfl | hc'
      · exact absurd hpc (by simp [hx])
      · exact mem_dropWhile_of_mem hc' hpc
    · rw [List.dropWhile_cons_of_neg hx]
      exact hc

theorem pyStrip_ne_nil {s : Str} {c : Char} (hc : c ∈ s)
    (hw : c.isWhitespace = false) : pyStrip s ≠ [] := by
  have h1 : c ∈ s.dropWhile Char.isWhitespace := mem_dropWhile_of_mem hc hw
  have h2 : c ∈ (s.dropWhile Char.isWhitespace).reverse :=
    List.mem_reverse.mpr h1
  have h3 : c ∈ (s.dropWhile Char.isWhitespace).reverse.dropWhile
      Char.isWhitespace := mem_dropWhile_of_mem h2 hw
  have h4 : c ∈ pyStrip s := List.mem_reverse.mpr h3
  exact List.ne_nil_of_mem h4

theorem getLast?_ne_of_not_mem {l : Str} {c : Char} (h : c ∉ l) :
    l.getLast? ≠ some c := by
  intro heq
  have heq2 : c ∈ l.getLast? := heq
  obtain ⟨hne, rfl⟩ := List.mem_getLast?_eq_getLast heq2
  exact h (List.getLast_mem hne)

theorem head?_ne_of_not_mem {l : Str} {c : Char} (h : c ∉ l) :
    l.head? ≠ some c := by
  cases l with
  | nil => simp
  | cons x xs =>
    simp only [List.head?_cons]
    intro heq
    have hxc : x = c := by injection heq
    exact h (hxc ▸ List.mem_cons_self x xs)

/-- `List.isPrefixOf` characterized by an existential over the tail. -/
theorem isPrefixOf_iff_exists :
    ∀ (a b : Str), a.isPrefixOf b = true ↔ ∃ t, a ++ t = b
  | [], b => by simp [List.isPrefixOf]
  | x :: xs, [] => by simp [List.isPrefixOf]
  | x :: xs, y :: ys => by
    simp only [List.isPrefixOf, Bool.and_eq_true, beq_iff_eq,
      isPrefixOf_iff_exists xs ys, List.cons_append, List.cons.injEq]
    constructor
    · rintro ⟨rfl, t, rfl⟩; exact ⟨t, rfl, rfl⟩
    · rintro ⟨t, rfl, rfl⟩; exact ⟨rfl, t, rfl⟩

theorem isUnder_iff (d p : Str) : isUnder d p = true ↔ ∃ t, d ++ '/' :: t = p := by
  simp only [isUnder, isPrefixOf_iff_exists]
  constructor
  · rintro ⟨t, rfl⟩; exact ⟨t, by simp⟩
  · rintro ⟨t, rfl⟩; exact ⟨t, by simp⟩

/-- Splitting a concatenation at a separator absent from both leading
segments: the segments and the tails agree. -/
theorem seg_eq {c : Char} :
    ∀ {a a' b b' : Str}, c ∉ a → c ∉ a' →
      a ++ c :: b = a' ++ c :: b' → a = a' ∧ b = b'
  | [], [], b, b', _, _, h => by simpa using h
  | [], x' :: xs', b, b', _, ha', h => by
    simp only [List.nil_append, List.cons_append, List.cons.injEq] at h
    exact absurd (h.1 ▸ List.mem_cons_self x' xs') (by rw [← h.1] at ha'; exact fun hm => ha' (h.1 ▸ hm))
  | x :: xs, [], b, b', ha, _, h => by
    simp only [List.cons_append, List.nil_append, List.cons.injEq] at h
    exact absurd (h.1 ▸ List.mem_cons_self x xs) (fun _ => ha (h.1 ▸ List.mem_cons_self x xs))
  | x :: xs, x' :: xs', b, b', ha, ha', h => by
    simp only [List.cons_append, List.cons.injEq] at h
    obtain ⟨rfl, h2⟩ := h
    have : xs = xs' ∧ b = b' := seg_eq
      (fun hm => ha (List.mem_cons_of_mem _ hm))
      (fun hm => ha' (List.mem_cons_of_mem _ hm)) h2
    exact ⟨by rw [this.1], this.2⟩

/-! ## List toolkit -/

theorem find?_split {α} {p : α → Bool} :
    ∀ {l : List α} {a : α}, l.find? p = some a →
      ∃ l₁ l₂, l = l₁ ++ a :: l₂ ∧ (∀ x ∈ l₁, p x = false) ∧ p a = true
  | [], a, h => by simp at h
  | x :: xs, a, h => by
    by_cases hx : p x
    · rw [List.find?_cons_of_pos _ hx] at h
      obtain rfl : x = a := by injection h
      exact ⟨[], xs, rfl, by simp, hx⟩
    · rw [List.find?_cons_of_neg _ hx] at h
      obtain ⟨l₁, l₂, rfl, hl₁, ha⟩ := find?_split h
      exact ⟨x :: l₁, l₂, rfl, by
        intro y hy
        rcases List.mem_cons.mp hy with rfl | hy'
        · simpa using hx
        · exact hl₁ y hy', ha⟩

theorem eraseP_append_split {α} {p : α → Bool} {a : α} (ha : p a = true) :
    ∀ {l₁ : List α} (l₂ : List α), (∀ x ∈ l₁, p x = false) →
      (l₁ ++ a :: l₂).eraseP p = l₁ ++ l₂
  | [], l₂, _ => by simp [List.eraseP_cons_of_pos ha]
  | x :: xs, l₂, h => by
    have hx : ¬ p x = true := by simp [h x (List.mem_cons_self x xs)]
    simp only [List.cons_append, List.eraseP_cons_of_neg (by simpa using hx)]
    rw [eraseP_append_split ha l₂ fun y hy => h y (List.mem_cons_of_mem _ hy)]

theorem pairwise_key_eq {α β} (key : α → β) {l : List α}
    (hp : l.Pairwise fun a b => key a ≠ key b) {a b : α}
    (ha : a ∈ l) (hb : b ∈ l) (h : key a = key b) : a = b := by
  by_contra hne
  exact hp.forall (fun x y hxy => fun hyx => hxy hyx.symm) ha hb hne h

theorem find?_filter_of {α} {pred keep : α → Bool} :
    ∀ (l : List α), (∀ e ∈ l, pred e = true → keep e = true) →
      (l.filter keep).find? pred = l.find? pred
  | [], _ => rfl
  | x :: xs, h => by
    by_cases hpx : pred x
    · have hkx : keep x = true := h x (List.mem_cons_self x xs) hpx
      rw [List.filter_cons_of_pos hkx, List.find?_cons_of_pos _ hpx,
        List.find?_cons_of_pos _ hpx]
    · have ih := find?_filter_of xs fun e he => h e (List.mem_cons_of_mem _ he)
      by_cases hkx : keep x
      · rw [List.filter_cons_of_pos hkx, List.find?_cons_of_neg _ hpx,
          List.find?_cons_of_neg _ hpx, ih]
      · rw [List.filter_cons_of_neg (by simpa using hkx),
          List.find?_cons_of_neg _ hpx, ih]

theorem find?_map_of_fields {α} {pred : α → Bool} (g : α → α)
    (hg : ∀ e, pred (g e) = pred e) :
    ∀ (l : List α), (l.map g).find? pred = (l.find? pred).map g
  | [] => rfl
  | x :: xs => by
    by_cases hpx : pred x
    · rw [List.map_cons, List.find?_cons_of_pos _ (by rw [hg]; exact hpx),
        List.find?_cons_of_pos _ hpx]
      rfl
    · rw [List.map_cons, List.find?_cons_of_neg _ (by rw [hg]; simpa using hpx),
        List.find?_cons_of_neg _ hpx, find?_map_of_fields g hg xs]

/-- Erasing by a unique key removes exactly the found element. -/
theorem eraseP_of_uniq_key {α β} (key : α → β) [DecidableEq β] {l : List α}
    (hp : l.Pairwise fun a b => key a ≠ key b) {a : α} (ha : a ∈ l) :
    ∃ l₁ l₂, l = l₁ ++ a :: l₂ ∧
      l.eraseP (fun x => decide (key x = key a)) = l₁ ++ l₂ ∧
      (∀ x ∈ l₁ ++ l₂, key x ≠ key a) := by
  obtain ⟨l₁, l₂, rfl⟩ := List.append_of_mem ha
  have hmem : ∀ x ∈ l₁ ++ l₂, key x ≠ key a := by
    intro x hx hkey
    have hxa : x = a := pairwise_key_eq key hp
      (by rcases List.mem_append.mp hx with h | h
          · exact List.mem_append.mpr (Or.inl h)
          · exact List.mem_append.mpr (Or.inr (List.mem_cons_of_mem _ h)))
      ha hkey
    subst hxa
    rw [List.pairwise_append] at hp
    rcases List.mem_append.mp hx with h | h
    · exact hp.2.2 x h x (List.mem_cons_self _ _) rfl
    · exact (List.pairwise_cons.mp hp.2.1).1 x h rfl
  refine ⟨l₁, l₂, rfl, ?_, hmem⟩
  exact eraseP_append_split (by simp) l₂ fun x hx => by
    simpa using hmem x (List.mem_append.mpr (Or.inl hx))

/-! ## Path lemmas -/

theorem ospJoin_seg {a b : Str} (ha : a ≠ []) (hal : a.getLast? ≠ some '/')
    (hb : b.head? ≠ some '/') : ospJoin a b = a ++ '/' :: b := by
  rw [ospJoin, if_neg hb, if_neg (by simp [ha, hal])]

theorem getLast?_bucketPath {u n : Str} (hu : GoodSeg u) (hn : GoodSeg n) :
    (bucketPathOf u n).getLast? = n.getLast? := by
  rw [bucketPathOf, ospJoin_seg (by simp [STORAGE_PATH, str]) (by decide)
    (head?_ne_of_not_mem hu.2),
    ospJoin_seg (by simp) (by
      rw [List.getLast?_append_of_ne_nil _ (by simp [hu.1])]
      have : ('/' :: u).getLast? = u.getLast? := by
        have : '/' :: u = ['/'] ++ u := rfl
        rw [this, List.getLast?_append_of_ne_nil _ hu.1]
      rw [this]
      exact getLast?_ne_of_not_mem hu.2) (head?_ne_of_not_mem hn.2)]
  rw [List.getLast?_append_of_ne_nil _ (by simp [hn.1])]
  have : ('/' :: n) = ['/'] ++ n := rfl
  rw [this, List.getLast?_append_of_ne_nil _ hn.1]

theorem bucketPathOf_seg {u n : Str} (hu : GoodSeg u) (hn : GoodSeg n) :
    bucketPathOf u n = STORAGE_PATH ++ '/' :: (u ++ '/' :: n) := by
  rw [bucketPathOf, ospJoin_seg (by simp [STORAGE_PATH, str]) (by decide)
    (head?_ne_of_not_mem hu.2),
    ospJoin_seg (by simp) (by
      rw [List.getLast?_append_of_ne_nil _ (by simp [hu.1])]
      have : ('/' :: u).getLast? = u.getLast? := by
        have : '/' :: u = ['/'] ++ u := rfl
        rw [this, List.getLast?_append_of_ne_nil _ hu.1]
      rw [this]
      exact getLast?_ne_of_not_mem hu.2) (head?_ne_of_not_mem hn.2)]
  simp

theorem filePathOf_seg {u n fn : Str} (hu : GoodSeg u) (hn : GoodSeg n)
    (hfn : '/' ∉ fn) :
    filePathOf u n fn = STORAGE_PATH ++ '/' :: (u ++ '/' :: (n ++ '/' :: fn)) := by
  rw [filePathOf, ospJoin_seg
    (by rw [bucketPathOf_seg hu hn]; simp [STORAGE_PATH, str])
    (by rw [getLast?_bucketPath hu hn]; exact getLast?_ne_of_not_mem hn.2)
    (head?_ne_of_not_mem hfn), bucketPathOf_seg hu hn]
  simp

theorem bucketPathOf_inj {u n u' n' : Str} (hu : GoodSeg u) (hn : GoodSeg n)
    (hu' : GoodSeg u') (hn' : GoodSeg n')
    (h : bucketPathOf u n = bucketPathOf u' n') : u = u' ∧ n = n' := by
  rw [bucketPathOf_seg hu hn, bucketPathOf_seg hu' hn'] at h
  have h2 := List.append_cancel_left h
  have h3 : u ++ '/' :: n = u' ++ '/' :: n' := by injection h2
  exact seg_eq hu.2 hu'.2 h3

/-- A path below one bucket's directory can only be a file path derived from
the same owner and bucket name (given separator-free segments). -/
theorem isUnder_bucketPath_filePath {u n u' n' fn' : Str}
    (hu : GoodSeg u) (hn : GoodSeg n) (hu' : GoodSeg u') (hn' : GoodSeg n')
    (hfn' : '/' ∉ fn')
    (h : isUnder (bucketPathOf u n) (filePathOf u' n' fn') = true) :
    u = u' ∧ n = n' := by
  obtain ⟨t, ht⟩ := (isUnder_iff _ _).mp h
  rw [bucketPathOf_seg hu hn, filePathOf_seg hu' hn' hfn'] at ht
  rw [List.append_assoc] at ht
  have h2 := List.append_cancel_left ht
  have h3 : u ++ '/' :: (n ++ '/' :: t) = u' ++ '/' :: (n' ++ '/' :: fn') := by
    simpa using h2
  obtain ⟨rfl, h4⟩ := seg_eq hu.2 hu'.2 h3
  obtain ⟨rfl, -⟩ := seg_eq hn.2 hn'.2 h4
  exact ⟨rfl, rfl⟩

/-- Derived file paths are injective on separator-free segments. -/
theorem filePathOf_inj {u n fn u' n' fn' : Str}
    (hu : GoodSeg u) (hn : GoodSeg n) (hfn : '/' ∉ fn)
    (hu' : GoodSeg u') (hn' : GoodSeg n') (hfn' : '/' ∉ fn')
    (h : filePathOf u n fn = filePathOf u' n' fn') :
    u = u' ∧ n = n' ∧ fn = fn' := by
  rw [filePathOf_seg hu hn hfn, filePathOf_seg hu' hn' hfn'] at h
  have h2 := List.append_cancel_left h
  have h3 : u ++ '/' :: (n ++ '/' :: fn) = u' ++ '/' :: (n' ++ '/' :: fn') := by
    injection h2
  obtain ⟨rfl, h4⟩ := seg_eq hu.2 hu'.2 h3
  obtain ⟨rfl, h5⟩ := seg_eq hn.2 hn'.2 h4
  exact ⟨rfl, rfl, h5⟩

/-! ## Blob store lemmas -/

theorem blobLookup_write_self (bs : List (Str × Bytes)) (p : Str) (c : Bytes) :
    blobLookup (blobWrite bs p c) p = some c := by
  simp [blobLookup, blobWrite, List.find?_cons_of_pos]

theorem blobLookup_write_ne (bs : List (Str × Bytes)) {p q : Str} (c : Bytes)
    (h : q ≠ p) : blobLookup (blobWrite bs p c) q = blobLookup bs q := by
  simp only [blobLookup, blobWrite]
  rw [List.find?_cons_of_neg _ (by simpa using fun h' => h h'.symm)]

theorem blobRemove_of_none {bs : List (Str × Bytes)} {p : Str}
    (h : blobLookup bs p = none) : blobRemove bs p = bs := by
  simp only [blobLookup, Option.map_eq_none', List.find?_eq_none] at h
  simp only [blobRemove]
  rw [List.filter_eq_self.mpr]
  intro e he
  simpa using h e he

theorem blobLookup_filter_of {bs : List (Str × Bytes)} {p : Str}
    {keep : Str × Bytes → Bool} (h : ∀ e ∈ bs, e.1 = p → keep e = true) :
    blobLookup (bs.filter keep) p = blobLookup bs p := by
  simp only [blobLookup]
  rw [find?_filter_of bs fun e he hpred =>
    h e he (by simpa using hpred)]

theorem blobLookup_remove_ne (bs : List (Str × Bytes)) {p q : Str}
    (h : p ≠ q) : blobLookup (blobRemove bs q) p = blobLookup bs p :=
  blobLookup_filter_of fun e _ he => by simp [he, h]

theorem blobLookup_rmtree_not_under (bs : List (Str × Bytes)) {d p : Str}
    (h : isUnder d p = false) :
    blobLookup (rmtreeBlobs bs d) p = blobLookup bs p :=
  blobLookup_filter_of fun e _ he => by simp [he, h]

/-! ## Validator lemmas -/

theorem pyIsalnum_iff (s : Str) :
    pyIsalnum s = true ↔ s ≠ [] ∧ ∀ c ∈ s, c.isAlphanum = true := by
  simp [pyIsalnum, List.isEmpty_iff, List.all_eq_true]

theorem validator_goodSeg {name : Str}
    (h : pyIsalnum (stripHyphensUnderscores name) = true) : GoodSeg name := by
  obtain ⟨hne, hall⟩ := (pyIsalnum_iff _).mp h
  constructor
  · intro hnil
    exact hne (by simp [stripHyphensUnderscores, hnil])
  · intro hsl
    have hmem : '/' ∈ stripHyphensUnderscores name := by
      simp only [stripHyphensUnderscores, List.mem_filter]
      exact ⟨hsl, by decide⟩
    have := hall _ hmem
    revert this; decide

theorem validator_pass_iff (name : Str) :
    (¬ (name.isEmpty = true ∨ (pyStrip name).isEmpty = true) ∧
      pyIsalnum (stripHyphensUnderscores name) = true) ↔
    (SpecNameAccepted name ∧ ∃ c ∈ name, c.isAlphanum = true) := by
  constructor
  · rintro ⟨h1, h2⟩
    obtain ⟨hne, hall⟩ := (pyIsalnum_iff _).mp h2
    have hnamene : name ≠ [] := by
      intro hnil
      exact h1 (Or.inl (by simp [hnil]))
    refine ⟨⟨hnamene, ?_⟩, ?_⟩
    · intro c hc
      by_cases hcu : c = '-' ∨ c = '_'
      · rcases hcu with rfl | rfl
        · exact Or.inr (Or.inl rfl)
        · exact Or.inr (Or.inr rfl)
      · refine Or.inl (hall c ?_)
        simp only [stripHyphensUnderscores, List.mem_filter]
        exact ⟨hc, by simpa using hcu⟩
    · obtain ⟨c, hc⟩ := List.exists_mem_of_ne_nil _ hne
      refine ⟨c, ?_, hall c hc⟩
      exact (List.mem_filter.mp hc).1
  · rintro ⟨⟨hne, hall⟩, c, hc, hcal⟩
    have hcpred : ¬ (c = '-' ∨ c = '_') := by
      rintro (rfl | rfl) <;> revert hcal <;> decide
    have hcfilter : c ∈ stripHyphensUnderscores name := by
      simp only [stripHyphensUnderscores, List.mem_filter]
      exact ⟨hc, by simpa using hcpred⟩
    refine ⟨?_, ?_⟩
    · rintro (h | h)
      · exact hne (by simpa using h)
      · exact pyStrip_ne_nil hc (alphanum_not_whitespace hcal) (by simpa using h)
    · refine (pyIsalnum_iff _).mpr ⟨List.ne_nil_of_mem hcfilter, ?_⟩
      intro x hx
      obtain ⟨hxname, hxpred⟩ := List.mem_filter.mp hx
      rcases hall x hxname with h | h | h
      · exact h
      · exact absurd (Or.inl h) (by simpa using hxpred)
      · exact absurd (Or.inr h) (by simpa using hxpred)

/-! ## Operation characterizations -/

theorem findBucket_spec {s : SysState} {u bn : Str} {bucket : BucketDoc}
    (hb : findBucket s u bn = some bucket) :
    bucket ∈ s.buckets ∧ bucket.name = bn ∧ bucket.userId = u := by
  refine ⟨List.mem_of_find?_eq_some hb, ?_⟩
  have := List.find?_some hb
  simpa using this

theorem findFile_spec {s : SysState} {bid : Nat} {fn : Str} {fd : FileDoc}
    (hf : findFile s bid fn = some fd) :
    fd ∈ s.files ∧ fd.bucketId = bid ∧ fd.filename = fn := by
  refine ⟨List.mem_of_find?_eq_some hf, ?_⟩
  have := List.find?_some hf
  simpa using this

theorem upload_success_eq {s : SysState} {u bn fn : Str} {content : Bytes}
    {bucket : BucketDoc}
    (hb : findBucket s u bn = some bucket)
    (hq : check_storage_limit s u content.length = true)
    (hnew : blobLookup s.blobs (filePathOf u bn fn) = none) :
    upload_file s u bn fn content =
      ({ s with
          blobs := blobWrite s.blobs (filePathOf u bn fn) content,
          files := { id := s.nextId, filename := fn, bucketId := bucket.id,
                     bucketName := bn, userId := u, size := content.length,
                     filePath := filePathOf u bn fn } :: s.files,
          buckets := s.buckets.map fun b =>
            if b.id = bucket.id then
              { b with fileCount := b.fileCount + 1,
                       totalSize := b.totalSize + (content.length : Int) }
            else b,
          nextId := s.nextId + 1 }, none) := by
  unfold upload_file
  rw [hb]
  simp [hq, hnew]

theorem upload_success_inv {s : SysState} {u bn fn : Str} {content : Bytes}
    (h : (upload_file s u bn fn content).2 = none) :
    ∃ bucket, findBucket s u bn = some bucket ∧
      check_storage_limit s u content.length = true ∧
      blobLookup s.blobs (filePathOf u bn fn) = none := by
  unfold upload_file at h
  cases hb : findBucket s u bn with
  | none => rw [hb] at h; simp at h
  | some bucket =>
    rw [hb] at h
    simp only at h
    by_cases hq : check_storage_limit s u content.length
    · by_cases hnew : (blobLookup s.blobs (filePathOf u bn fn)).isSome
      · rw [if_neg (by simp [hq]), if_pos hnew] at h; simp at h
      · exact ⟨bucket, rfl, hq, by simpa using hnew⟩
    · rw [if_pos (by simp [hq])] at h; simp at h

theorem upload_quota_reject {s : SysState} {u bn fn : Str} {content : Bytes}
    (hb : (findBucket s u bn).isSome)
    (hq : check_storage_limit s u content.length = false) :
    upload_file s u bn fn content = (s, some .quotaExceeded) := by
  obtain ⟨bucket, hb'⟩ := Option.isSome_iff_exists.mp hb
  unfold upload_file
  rw [hb']
  simp [hq]

theorem upload_failing_atWrite_eq {s : SysState} {u bn fn : Str}
    {content : Bytes} {bucket : BucketDoc}
    (hb : findBucket s u bn = some bucket)
    (hq : check_storage_limit s u content.length = true)
    (hnew : blobLookup s.blobs (filePathOf u bn fn) = none) :
    upload_file_failing s u bn fn content .atBlobWrite =
      ({ s with blobs := blobRemove s.blobs (filePathOf u bn fn) },
        some .storageError) := by
  unfold upload_file_failing
  rw [hb]
  simp [hq, hnew]

theorem upload_failing_atInsert_eq {s : SysState} {u bn fn : Str}
    {content : Bytes} {bucket : BucketDoc}
    (hb : findBucket s u bn = some bucket)
    (hq : check_storage_limit s u content.length = true)
    (hnew : blobLookup s.blobs (filePathOf u bn fn) = none) :
    upload_file_failing s u bn fn content .atInsert =
      ({ s with
          blobs :=
            blobRemove (blobWrite s.blobs (filePathOf u bn fn) content)
              (filePathOf u bn fn) }, some .storageError) := by
  unfold upload_file_failing
  rw [hb]
  simp [hq, hnew]

theorem upload_failing_atStats_eq {s : SysState} {u bn fn : Str}
    {content : Bytes} {bucket : BucketDoc}
    (hb : findBucket s u bn = some bucket)
    (hq : check_storage_limit s u content.length = true)
    (hnew : blobLookup s.blobs (filePathOf u bn fn) = none) :
    upload_file_failing s u bn fn content .atStatsUpdate =
      ({ s with
          blobs := blobRemove
            (blobWrite s.blobs (filePathOf u bn fn) content)
            (filePathOf u bn fn),
          files := { id := s.nextId, filename := fn, bucketId := bucket.id,
                     bucketName := bn, userId := u, size := content.length,
                     filePath := filePathOf u bn fn } :: s.files,
          nextId := s.nextId + 1 }, some .storageError) := by
  unfold upload_file_failing
  rw [hb]
  simp [hq, hnew]

theorem delete_file_success_eq {s : SysState} {u bn fn : Str}
    {bucket : BucketDoc} {fd : FileDoc}
    (hb : findBucket s u bn = some bucket)
    (hf : findFile s bucket.id fn = some fd) :
    delete_file s u bn fn =
      ({ s with
          blobs := (match blobLookup s.blobs fd.filePath with
            | some _ => blobRemove s.blobs fd.filePath
            | none => s.blobs),
          files := s.files.eraseP fun f => decide (f.id = fd.id),
          buckets := s.buckets.map fun b =>
            if b.id = bucket.id then
              { b with fileCount := b.fileCount - 1,
                       totalSize := b.totalSize -
                         ((match blobLookup s.blobs fd.filePath with
                           | some content => content.length
                           | none => fd.size : Nat) : Int) }
            else b }, none) := by
  unfold delete_file
  simp only [hb, hf]
  cases hbl : blobLookup s.blobs fd.filePath <;> simp [hbl]

theorem delete_bucket_eq {s : SysState} {u bn : Str} {bucket : BucketDoc}
    (hb : findBucket s u bn = some bucket) :
    delete_bucket s u bn =
      (deleteBucketDoc
        (deleteBucketBlobs (deleteBucketFiles s bucket.id)
          (bucketPathOf u bn))
        bucket.id, none) := by
  unfold delete_bucket
  rw [hb]

theorem blobRemove_write_cancel {bs : List (Str × Bytes)} {p : Str}
    (c : Bytes) (h : blobLookup bs p = none) :
    blobRemove (blobWrite bs p c) p = bs := by
  simp only [blobRemove, blobWrite, List.filter_cons]
  rw [if_neg (by simp)]
  exact blobRemove_of_none h

theorem delete_file_measured_eq {s : SysState} {u bn fn : Str}
    {bucket : BucketDoc} {fd : FileDoc}
    (hb : findBucket s u bn = some bucket)
    (hf : findFile s bucket.id fn = some fd) :
    delete_file s u bn fn =
      ({ s with
          blobs := (match blobLookup s.blobs fd.filePath with
            | some _ => blobRemove s.blobs fd.filePath
            | none => s.blobs),
          files := s.files.eraseP fun f => decide (f.id = fd.id),
          buckets := s.buckets.map fun b =>
            if b.id = bucket.id then
              { b with fileCount := b.fileCount - 1,
                       totalSize := b.totalSize - (measuredSize s fd : Int) }
            else b }, none) := by
  rw [delete_file_success_eq hb hf]
  unfold measuredSize
  cases blobLookup s.blobs fd.filePath <;> rfl

/-! ## Claim C6 -/

/-- Claim C6, counterexample: the single-hyphen name `"-"` matches the
spec's pattern `[A-Za-z0-9_-]+` and is non-empty, yet `create_bucket`
reports `InvalidName` for it (Python's `isalnum` rejects the string left
after deleting all hyphens and underscores, here the empty string). -/
theorem c6_counterexample :
    SpecNameAccepted (str "-") ∧
    create_bucket initState (str "u1") (str "-") =
      (initState, some ApiError.invalidName) := by decide

/-- Claim C6 (amended): `create_bucket` reports `InvalidName` exactly when
the name fails the spec pattern `[A-Za-z0-9_-]+` **or** contains no
alphanumeric character at all (names consisting solely of hyphens and
underscores are rejected even though the pattern admits them). ASCII model
of Python's `str.isalnum`. -/
theorem c6_name_validation (s : SysState) (u name : Str) :
    (create_bucket s u name).2 = some ApiError.invalidName ↔
      ¬ (SpecNameAccepted name ∧ ∃ c ∈ name, c.isAlphanum = true) := by
  rw [← validator_pass_iff]
  by_cases h1 : (name.isEmpty = true ∨ (pyStrip name).isEmpty = true)
  · have hres : (create_bucket s u name).2 = some ApiError.invalidName := by
      unfold create_bucket; rw [if_pos h1]
    rw [hres]
    exact iff_of_true rfl fun hc => hc.1 h1
  · by_cases h2 : pyIsalnum (stripHyphensUnderscores name) = true
    · have hne : (create_bucket s u name).2 ≠ some ApiError.invalidName := by
        unfold create_bucket
        rw [if_neg h1, if_neg (by simpa using h2)]
        cases hfb : findBucket s u name with
        | some b => simp
        | none =>
          by_cases h3 : bucketPathOf u name ∈ s.dirs
          · simp [h3]
          · simp [h3]
      exact iff_of_false hne fun hc => hc ⟨h1, h2⟩
    · have hres : (create_bucket s u name).2 = some ApiError.invalidName := by
        unfold create_bucket
        rw [if_neg h1, if_pos (by simpa using h2)]
      rw [hres]
      exact iff_of_true rfl fun hc => h2 hc.2

/-! ## Claim C2 -/

/-- Claim C2: the admission check accepts exactly when current usage plus
the new size stays within the 1 GiB limit; an upload whose admission check
fails (with the bucket resolved) is rejected as `QuotaExceeded` with the
state unchanged; every accepted upload satisfied
`usage_before + size ≤ STORAGE_LIMIT_BYTES`. -/
theorem c2_quota_admission (s : SysState) (u bn fn : Str) (content : Bytes)
    (n : Nat) :
    (check_storage_limit s u n = true ↔
      get_user_storage_usage s u + n ≤ STORAGE_LIMIT_BYTES) ∧
    ((findBucket s u bn).isSome = true →
      check_storage_limit s u content.length = false →
      upload_file s u bn fn content = (s, some ApiError.quotaExceeded)) ∧
    ((upload_file s u bn fn content).2 = none →
      get_user_storage_usage s u + content.length ≤ STORAGE_LIMIT_BYTES) := by
  refine ⟨?_, ?_, ?_⟩
  · simp [check_storage_limit]
  · exact fun hb hq => upload_quota_reject hb hq
  · intro h
    obtain ⟨bucket, _, hq, _⟩ := upload_success_inv h
    simpa [check_storage_limit] using hq

/-- Claim C2, witness: on a state at exactly the quota, a one-byte upload is
rejected as `QuotaExceeded` and changes nothing. -/
theorem c2_quota_admission_witness :
    upload_file quotaFullState (str "u1") (str "b") (str "g") [0] =
      (quotaFullState, some ApiError.quotaExceeded) :=
  (c2_quota_admission quotaFullState (str "u1") (str "b") (str "g") [0] 0).2.1
    (by decide) (by decide)

/-! ## Claim C4 -/

/-- Claim C4: if the FileRecord insertion fails after a successful blob
write during upload, the `except` handler deletes the written blob before
reporting the error; afterwards no blob remains at the target location and
the state is exactly as before the upload. -/
theorem c4_upload_compensation (s : SysState) (u bn fn : Str) (content : Bytes)
    (bucket : BucketDoc)
    (hb : findBucket s u bn = some bucket)
    (hq : check_storage_limit s u content.length = true)
    (hnew : blobLookup s.blobs (filePathOf u bn fn) = none) :
    upload_file_failing s u bn fn content .atInsert =
      (s, some ApiError.storageError) ∧
    blobLookup (upload_file_failing s u bn fn content .atInsert).1.blobs
      (filePathOf u bn fn) = none := by
  have heq := upload_failing_atInsert_eq hb hq hnew
  have hcancel := blobRemove_write_cancel content hnew
  have hstate : upload_file_failing s u bn fn content .atInsert =
      (s, some ApiError.storageError) := by
    rw [heq, hcancel]
  exact ⟨hstate, by rw [hstate]; exact hnew⟩

/-- Claim C4, witness: a concrete metadata-insert failure on a bucket with
one existing file leaves the state untouched and no blob at the target. -/
theorem c4_upload_compensation_witness :
    upload_file_failing smallState (str "u1") (str "b") (str "g") [7]
        .atInsert = (smallState, some ApiError.storageError) ∧
    blobLookup (upload_file_failing smallState (str "u1") (str "b") (str "g")
        [7] .atInsert).1.blobs
      (filePathOf (str "u1") (str "b") (str "g")) = none :=
  c4_upload_compensation smallState (str "u1") (str "b") (str "g") [7]
    { id := 0, name := str "b", userId := str "u1", fileCount := 1,
      totalSize := 2 }
    (by decide) (by decide) (by decide)

/-! ## Claim C8 -/

/-- If the bucket, the FileRecord, and the blob all resolve, a download
returns the blob's bytes. -/
theorem download_resolves {s : SysState} {u bn fn : Str} {bk : BucketDoc}
    {fd : FileDoc} {content : Bytes}
    (hfb : findBucket s u bn = some bk)
    (hff : findFile s bk.id fn = some fd)
    (hbl : blobLookup s.blobs fd.filePath = some content) :
    download_file s u bn fn = Except.ok content := by
  unfold download_file
  simp only [hfb, hff, hbl]

/-- Claim C8: a successful upload followed by a download of the same
filename from the same bucket returns exactly the uploaded bytes, and the
FileRecord created by the upload records their exact length as `size`. -/
theorem c8_round_trip (s : SysState) (u bn fn : Str) (content : Bytes)
    (h : (upload_file s u bn fn content).2 = none) :
    download_file (upload_file s u bn fn content).1 u bn fn =
      Except.ok content ∧
    ∃ fd ∈ (upload_file s u bn fn content).1.files,
      fd.userId = u ∧ fd.bucketName = bn ∧ fd.filename = fn ∧
      fd.size = content.length := by
  obtain ⟨bucket, hb, hq, hnew⟩ := upload_success_inv h
  rw [upload_success_eq hb hq hnew]
  have hgfields : ∀ b : BucketDoc,
      (decide (((fun b => if b.id = bucket.id then
          { b with fileCount := b.fileCount + 1,
                   totalSize := b.totalSize + (content.length : Int) }
        else b) b).name = bn ∧
        ((fun b => if b.id = bucket.id then
          { b with fileCount := b.fileCount + 1,
                   totalSize := b.totalSize + (content.length : Int) }
        else b) b).userId = u)) =
      (decide (b.name = bn ∧ b.userId = u)) := by
    intro b; by_cases hb2 : b.id = bucket.id <;> simp [hb2]
  have hfb2 : (s.buckets.map fun b => if b.id = bucket.id then
      { b with fileCount := b.fileCount + 1,
               totalSize := b.totalSize + (content.length : Int) }
      else b).find? (fun b => decide (b.name = bn ∧ b.userId = u)) =
      some (if bucket.id = bucket.id then
        { bucket with fileCount := bucket.fileCount + 1,
                      totalSize := bucket.totalSize + (content.length : Int) }
      else bucket) := by
    rw [find?_map_of_fields _ hgfields s.buckets]
    rw [show s.buckets.find? (fun b => decide (b.name = bn ∧ b.userId = u)) =
      some bucket from hb]
    rfl
  have hff : findFile
      ({ s with
          blobs := blobWrite s.blobs (filePathOf u bn fn) content,
          files := { id := s.nextId, filename := fn, bucketId := bucket.id,
                     bucketName := bn, userId := u, size := content.length,
                     filePath := filePathOf u bn fn } :: s.files,
          buckets := s.buckets.map fun b =>
            if b.id = bucket.id then
              { b with fileCount := b.fileCount + 1,
                       totalSize := b.totalSize + (content.length : Int) }
            else b,
          nextId := s.nextId + 1 } : SysState)
      (if bucket.id = bucket.id then
        { bucket with fileCount := bucket.fileCount + 1,
                      totalSize := bucket.totalSize + (content.length : Int) }
      else bucket).id fn =
      some { id := s.nextId, filename := fn, bucketId := bucket.id,
             bucketName := bn, userId := u, size := content.length,
             filePath := filePathOf u bn fn } := by
    unfold findFile
    refine List.find?_cons_of_pos _ ?_
    simp
  refine ⟨download_resolves hfb2 hff ?_, ?_⟩
  · exact blobLookup_write_self s.blobs (filePathOf u bn fn) content
  · exact ⟨_, List.mem_cons_self _ _, rfl, rfl, rfl, rfl⟩

/-- Claim C8, witness: concrete round trip of `[4, 5, 6]` through bucket `b`. -/
theorem c8_round_trip_witness :
    download_file (upload_file smallState (str "u1") (str "b") (str "g")
        [4, 5, 6]).1 (str "u1") (str "b") (str "g") =
      Except.ok [4, 5, 6] ∧
    ∃ fd ∈ (upload_file smallState (str "u1") (str "b") (str "g")
        [4, 5, 6]).1.files,
      fd.userId = str "u1" ∧ fd.bucketName = str "b" ∧
      fd.filename = str "g" ∧ fd.size = [4, 5, 6].length :=
  c8_round_trip smallState (str "u1") (str "b") (str "g") [4, 5, 6] (by decide)

/-! ## Claim C9 -/

theorem filePathOf_under {u n fn : Str} (hu : GoodSeg u) (hn : GoodSeg n)
    (hfn : '/' ∉ fn) :
    filePathOf u n fn = bucketPathOf u n ++ '/' :: fn := by
  rw [filePathOf, ospJoin_seg
    (by rw [bucketPathOf_seg hu hn]; simp [STORAGE_PATH, str])
    (by rw [getLast?_bucketPath hu hn]; exact getLast?_ne_of_not_mem hn.2)
    (head?_ne_of_not_mem hfn)]

/-- Claim C9, counterexample: the code derives the blob location with
`os.path.join`, which lets an absolute filename replace the whole path. The
upload of filename `/app/storage/u1/evil` into bucket `b` succeeds and
stores the blob at `/app/storage/u1/evil` — inside the service's storage
tree but outside the bucket's own subtree `/app/storage/u1/b/`. The target
is chosen so the run matches the deployed program step for step: on a fresh
deployment no file pre-exists at `/app/storage/u1/evil` (so the
`os.path.exists` duplicate check at main.py line 377 is False), and its
parent directory `/app/storage/u1` was created by `os.makedirs` during
`create_bucket`, so the `open(file_path, "wb")` write succeeds. -/
theorem c9_counterexample :
    (upload_file (runOps [Op.createBucket (str "u1") (str "b")]) (str "u1")
        (str "b") (str "/app/storage/u1/evil") [1]).2 = none ∧
    filePathOf (str "u1") (str "b") (str "/app/storage/u1/evil") =
      str "/app/storage/u1/evil" ∧
    blobLookup (upload_file (runOps [Op.createBucket (str "u1") (str "b")])
        (str "u1") (str "b") (str "/app/storage/u1/evil") [1]).1.blobs
      (str "/app/storage/u1/evil") = some [1] ∧
    isUnder (bucketPathOf (str "u1") (str "b"))
      (filePathOf (str "u1") (str "b") (str "/app/storage/u1/evil")) =
      false := by
  decide

/-- Claim C9 (amended): a successful upload stores the blob at
`os.path.join(STORAGE_PATH, owner, bucket, filename)`, deterministically
derived from `(owner, bucket name, filename)`, and records that location in
the FileRecord; when the filename contains no path separator (the code does
not sanitize it), that location is `{storage}/{owner}/{bucket}/{filename}`,
inside the bucket's own subtree. -/
theorem c9_blob_location (s : SysState) (u bn fn : Str) (content : Bytes)
    (h : (upload_file s u bn fn content).2 = none) :
    blobLookup (upload_file s u bn fn content).1.blobs (filePathOf u bn fn) =
      some content ∧
    (∀ fd ∈ (upload_file s u bn fn content).1.files,
      fd ∈ s.files ∨ fd.filePath = filePathOf u bn fn) ∧
    (GoodSeg u → GoodSeg bn → '/' ∉ fn →
      filePathOf u bn fn = bucketPathOf u bn ++ '/' :: fn ∧
      isUnder (bucketPathOf u bn) (filePathOf u bn fn) = true) := by
  obtain ⟨bucket, hb, hq, hnew⟩ := upload_success_inv h
  rw [upload_success_eq hb hq hnew]
  refine ⟨blobLookup_write_self s.blobs (filePathOf u bn fn) content, ?_, ?_⟩
  · intro fd hfd
    rcases List.mem_cons.mp hfd with rfl | hfd'
    · exact Or.inr rfl
    · exact Or.inl hfd'
  · intro hu hn hfn
    have hpath := filePathOf_under hu hn hfn
    refine ⟨hpath, ?_⟩
    rw [hpath]
    exact (isUnder_iff _ _).mpr ⟨fn, rfl⟩

/-- Claim C9, witness: a benign filename lands inside the bucket subtree. -/
theorem c9_blob_location_witness :
    blobLookup (upload_file smallState (str "u1") (str "b") (str "g")
        [9]).1.blobs (filePathOf (str "u1") (str "b") (str "g")) = some [9] ∧
    (∀ fd ∈ (upload_file smallState (str "u1") (str "b") (str "g")
        [9]).1.files,
      fd ∈ smallState.files ∨
      fd.filePath = filePathOf (str "u1") (str "b") (str "g")) ∧
    (GoodSeg (str "u1") → GoodSeg (str "b") → '/' ∉ str "g" →
      filePathOf (str "u1") (str "b") (str "g") =
        bucketPathOf (str "u1") (str "b") ++ '/' :: str "g" ∧
      isUnder (bucketPathOf (str "u1") (str "b"))
        (filePathOf (str "u1") (str "b") (str "g")) = true) :=
  c9_blob_location smallState (str "u1") (str "b") (str "g") [9] (by decide)

/-! ## Claim C10 -/

/-- Claim C10, counterexample: when the aggregate `update_one` raises after
the FileRecord was inserted, the handler reports a 500 but the FileRecord
stays in the metadata store: the error branch left a new FileRecord behind. -/
theorem c10_counterexample :
    (upload_file_failing (runOps [Op.createBucket (str "u1") (str "b")])
        (str "u1") (str "b") (str "f") [5] .atStatsUpdate).2 =
      some ApiError.storageError ∧
    (runOps [Op.createBucket (str "u1") (str "b")]).files = [] ∧
    ((upload_file_failing (runOps [Op.createBucket (str "u1") (str "b")])
        (str "u1") (str "b") (str "f") [5] .atStatsUpdate).1.files.map
      (·.filename)) = [str "f"] := by
  decide

/-- Claim C10 (amended): an upload that fails after the quota and
duplicate checks passed reports `StorageError`; the bucket aggregates are
always unchanged, and the metadata store is fully unchanged when the blob
write or the FileRecord insertion failed — but when the aggregate update
fails, the inserted FileRecord remains (with its blob deleted). -/
theorem c10_upload_error_atomicity (s : SysState) (u bn fn : Str)
    (content : Bytes) (failAt : UploadFailure) (bucket : BucketDoc)
    (hb : findBucket s u bn = some bucket)
    (hq : check_storage_limit s u content.length = true)
    (hnew : blobLookup s.blobs (filePathOf u bn fn) = none) :
    (upload_file_failing s u bn fn content failAt).2 =
      some ApiError.storageError ∧
    (upload_file_failing s u bn fn content failAt).1.buckets = s.buckets ∧
    (failAt = .atBlobWrite ∨ failAt = .atInsert →
      (upload_file_failing s u bn fn content failAt).1 = s) ∧
    (failAt = .atStatsUpdate →
      (upload_file_failing s u bn fn content failAt).1.files =
        { id := s.nextId, filename := fn, bucketId := bucket.id,
          bucketName := bn, userId := u, size := content.length,
          filePath := filePathOf u bn fn } :: s.files ∧
      blobLookup (upload_file_failing s u bn fn content failAt).1.blobs
        (filePathOf u bn fn) = none) := by
  have hcancel := blobRemove_write_cancel content hnew
  cases failAt with
  | atBlobWrite =>
    have heq := upload_failing_atWrite_eq hb hq hnew
    rw [heq, blobRemove_of_none hnew]
    exact ⟨rfl, rfl, fun _ => rfl, by simp⟩
  | atInsert =>
    have heq := upload_failing_atInsert_eq hb hq hnew
    rw [heq, hcancel]
    exact ⟨rfl, rfl, fun _ => rfl, by simp⟩
  | atStatsUpdate =>
    have heq := upload_failing_atStats_eq hb hq hnew
    rw [heq, hcancel]
    exact ⟨rfl, rfl, by simp, fun _ => ⟨rfl, hnew⟩⟩

/-- Claim C10, witness: all three failure points exercised on a concrete
state (shown here for the insert failure; the theorem covers the rest). -/
theorem c10_upload_error_atomicity_witness :
    (upload_file_failing smallState (str "u1") (str "b") (str "g") [7]
        .atInsert).2 = some ApiError.storageError ∧
    (upload_file_failing smallState (str "u1") (str "b") (str "g") [7]
        .atInsert).1.buckets = smallState.buckets ∧
    (UploadFailure.atInsert = .atBlobWrite ∨
        UploadFailure.atInsert = .atInsert →
      (upload_file_failing smallState (str "u1") (str "b") (str "g") [7]
        .atInsert).1 = smallState) ∧
    (UploadFailure.atInsert = .atStatsUpdate →
      (upload_file_failing smallState (str "u1") (str "b") (str "g") [7]
          .atInsert).1.files =
        { id := smallState.nextId, filename := str "g", bucketId := 0,
          bucketName := str "b", userId := str "u1", size := [7].length,
          filePath := filePathOf (str "u1") (str "b") (str "g") } ::
          smallState.files ∧
      blobLookup (upload_file_failing smallState (str "u1") (str "b")
          (str "g") [7] .atInsert).1.blobs
        (filePathOf (str "u1") (str "b") (str "g")) = none) :=
  c10_upload_error_atomicity smallState (str "u1") (str "b") (str "g") [7]
    .atInsert
    { id := 0, name := str "b", userId := str "u1", fileCount := 1,
      totalSize := 2 }
    (by decide) (by decide) (by decide)

/-! ## Claim C5 -/

/-- Claim C5, counterexample: reachable by running the API (a path-traversal
filename lets bucket `p` re-create the blob behind bucket `m`'s FileRecord
with 7 bytes instead of the recorded 5). Deleting that file decrements `m`'s
aggregates by the re-measured on-disk size `7` (`os.path.getsize`), not the
recorded size `5`: `m.total_size` drops from 5 to -2 instead of 0. -/
theorem c5_counterexample :
    (findFile (runOps c5Ops) 1 (str "/app/storage/u1/p/x")).map (·.size) =
      some 5 ∧
    ((runOps c5Ops).buckets.map fun b => (b.id, b.fileCount, b.totalSize)) =
      [(3, 1, 7), (1, 1, 5)] ∧
    (((delete_file (runOps c5Ops) (str "u1") (str "m")
        (str "/app/storage/u1/p/x")).1).buckets.map
      fun b => (b.id, b.fileCount, b.totalSize)) = [(3, 1, 7), (1, 0, -2)] := by
  decide

/-- Claim C5 (amended): a resolved `delete_file` succeeds and decrements the
bucket aggregates by `(-1, -d)` where `d` is the on-disk blob size when the
blob is still present and the recorded FileRecord size when it is absent
(absence is tolerated); `d` equals the recorded size whenever the blob is
absent or matches the recorded size. -/
theorem c5_delete_decrement (s : SysState) (u bn fn : Str)
    (bucket : BucketDoc) (fd : FileDoc)
    (hb : findBucket s u bn = some bucket)
    (hf : findFile s bucket.id fn = some fd) :
    (delete_file s u bn fn).2 = none ∧
    (delete_file s u bn fn).1.buckets = (s.buckets.map fun b =>
      if b.id = bucket.id then
        { b with fileCount := b.fileCount - 1,
                 totalSize := b.totalSize - (measuredSize s fd : Int) }
      else b) ∧
    (blobLookup s.blobs fd.filePath = none → measuredSize s fd = fd.size) ∧
    ((blobLookup s.blobs fd.filePath).map (·.length) = some fd.size →
      measuredSize s fd = fd.size) := by
  rw [delete_file_measured_eq hb hf]
  refine ⟨rfl, rfl, ?_, ?_⟩
  · intro hnone
    unfold measuredSize
    rw [hnone]
  · intro hsome
    unfold measuredSize
    cases hbl : blobLookup s.blobs fd.filePath with
    | none => rfl
    | some content =>
      rw [hbl] at hsome
      simpa using hsome

/-- Claim C5, witness: deleting the two-byte file `f` of `smallState`
succeeds and decrements bucket `b`'s aggregates by `(-1, -2)`. -/
theorem c5_delete_decrement_witness :
    (delete_file smallState (str "u1") (str "b") (str "f")).2 = none ∧
    (delete_file smallState (str "u1") (str "b") (str "f")).1.buckets =
      (smallState.buckets.map fun b =>
        if b.id = 0 then
          { b with fileCount := b.fileCount - 1,
                   totalSize := b.totalSize -
                     (measuredSize smallState
                       { id := 1, filename := str "f", bucketId := 0,
                         bucketName := str "b", userId := str "u1", size := 2,
                         filePath := filePathOf (str "u1") (str "b")
                           (str "f") } : Int) }
        else b) ∧
    (blobLookup smallState.blobs (filePathOf (str "u1") (str "b")
        (str "f")) = none →
      measuredSize smallState
        { id := 1, filename := str "f", bucketId := 0,
          bucketName := str "b", userId := str "u1", size := 2,
          filePath := filePathOf (str "u1") (str "b") (str "f") } = 2) ∧
    ((blobLookup smallState.blobs (filePathOf (str "u1") (str "b")
        (str "f"))).map (·.length) = some 2 →
      measuredSize smallState
        { id := 1, filename := str "f", bucketId := 0,
          bucketName := str "b", userId := str "u1", size := 2,
          filePath := filePathOf (str "u1") (str "b") (str "f") } = 2) :=
  c5_delete_decrement smallState (str "u1") (str "b") (str "f")
    { id := 0, name := str "b", userId := str "u1", fileCount := 1,
      totalSize := 2 }
    { id := 1, filename := str "f", bucketId := 0, bucketName := str "b",
      userId := str "u1", size := 2,
      filePath := filePathOf (str "u1") (str "b") (str "f") }
    (by decide) (by decide)

/-! ## Claim C7 -/

/-- Claim C7: on a consistent state, `delete_bucket` proceeds in the order
metadata-children first, then blob subtree, then bucket document, and
afterwards no FileRecord references the bucket's id, no blob remains below
the bucket's path, and the bucket document is gone. -/
theorem c7_cascade_delete (s : SysState) (u bn : Str) (bucket : BucketDoc)
    (hinv : EngineInv s)
    (hb : findBucket s u bn = some bucket) :
    delete_bucket s u bn =
      (deleteBucketDoc (deleteBucketBlobs (deleteBucketFiles s bucket.id)
        (bucketPathOf u bn)) bucket.id, none) ∧
    (∀ f ∈ (delete_bucket s u bn).1.files, f.bucketId ≠ bucket.id) ∧
    (∀ e ∈ (delete_bucket s u bn).1.blobs,
      isUnder (bucketPathOf u bn) e.1 = false) ∧
    (∀ b' ∈ (delete_bucket s u bn).1.buckets, b'.id ≠ bucket.id) := by
  have heq := delete_bucket_eq hb
  obtain ⟨-, -, hpairB, -, -, -, -, -, -, -, -, -⟩ := hinv
  refine ⟨heq, ?_, ?_, ?_⟩
  · intro f hf
    rw [heq] at hf
    simp only [deleteBucketDoc, deleteBucketBlobs, deleteBucketFiles,
      List.mem_filter] at hf
    simpa using hf.2
  · intro e he
    rw [heq] at he
    simp only [deleteBucketDoc, deleteBucketBlobs, deleteBucketFiles,
      rmtreeBlobs, List.mem_filter] at he
    simpa using he.2
  · intro b' hb'
    rw [heq] at hb'
    simp only [deleteBucketDoc, deleteBucketBlobs, deleteBucketFiles] at hb'
    obtain ⟨l₁, l₂, hsplit, herase, hne⟩ :=
      eraseP_of_uniq_key BucketDoc.id hpairB (findBucket_spec hb).1
    rw [herase] at hb'
    exact hne b' hb'

/-- Claim C7, witness: deleting bucket `b` holding three files leaves no
FileRecord, no blob under the bucket path, and no bucket document. -/
theorem c7_cascade_delete_witness :
    delete_bucket threeFileState (str "u1") (str "b") =
      (deleteBucketDoc (deleteBucketBlobs (deleteBucketFiles threeFileState 0)
        (bucketPathOf (str "u1") (str "b"))) 0, none) ∧
    (∀ f ∈ (delete_bucket threeFileState (str "u1") (str "b")).1.files,
      f.bucketId ≠ 0) ∧
    (∀ e ∈ (delete_bucket threeFileState (str "u1") (str "b")).1.blobs,
      isUnder (bucketPathOf (str "u1") (str "b")) e.1 = false) ∧
    (∀ b' ∈ (delete_bucket threeFileState (str "u1") (str "b")).1.buckets,
      b'.id ≠ 0) :=
  c7_cascade_delete threeFileState (str "u1") (str "b")
    { id := 0, name := str "b", userId := str "u1", fileCount := 3,
      totalSize := 6 }
    (by decide) (by decide)

/-! ## Claim C3 -/

/-- Claim C3, counterexample: the quota admission check runs before the
duplicate check (main.py lines 363-378), so an upload of a filename whose
FileRecord already exists reports `QuotaExceeded` — not `AlreadyExists` —
when the owner is at quota. (The state carries a stub blob: the rejected
branch never consults blob contents, only the recorded sizes.) -/
theorem c3_counterexample :
    (findFile quotaFullState 0 (str "f")).isSome = true ∧
    findBucket quotaFullState (str "u1") (str "b") =
      some { id := 0, name := str "b", userId := str "u1", fileCount := 1,
             totalSize := (STORAGE_LIMIT_BYTES : Int) } ∧
    upload_file quotaFullState (str "u1") (str "b") (str "f") [0] =
      (quotaFullState, some ApiError.quotaExceeded) := by
  decide

/-- Claim C3 (amended): provided the quota admission check passes (it runs
first), uploading a filename whose FileRecord already exists in the bucket
of a consistent state reports `AlreadyExists` and changes nothing — the
first FileRecord and its blob are left untouched; uploads never silently
overwrite. -/
theorem c3_duplicate_upload (s : SysState) (u bn fn : Str) (content : Bytes)
    (bucket : BucketDoc) (fd : FileDoc)
    (hinv : EngineInv s)
    (hb : findBucket s u bn = some bucket)
    (hf : findFile s bucket.id fn = some fd)
    (hq : check_storage_limit s u content.length = true) :
    upload_file s u bn fn content = (s, some ApiError.alreadyExists) := by
  obtain ⟨hmem, hfid, hffn⟩ := findFile_spec hf
  obtain ⟨hbmem, hbname, hbuser⟩ := findBucket_spec hb
  obtain ⟨-, -, hpairB, -, -, -, hown, hpath, hblob, -, -, -⟩ := hinv
  obtain ⟨b', hb'mem, hb'id, hb'name, hb'user⟩ := hown fd hmem
  have hbb : b' = bucket := pairwise_key_eq BucketDoc.id hpairB hb'mem hbmem
    (by rw [hb'id, hfid])
  subst hbb
  have hfduser : fd.userId = u := by rw [← hb'user, hbuser]
  have hfdname : fd.bucketName = bn := by rw [← hb'name, hbname]
  have hfdpath : fd.filePath = filePathOf u bn fn := by
    rw [(hpath fd hmem).1, hfduser, hfdname, hffn]
  have hsome : (blobLookup s.blobs (filePathOf u bn fn)).isSome = true := by
    have := hblob fd hmem
    rw [hfdpath] at this
    cases hbl : blobLookup s.blobs (filePathOf u bn fn) with
    | none => rw [hbl] at this; simp at this
    | some content => simp
  unfold upload_file
  rw [hb]
  simp [hq, hsome]

/-- Claim C3, witness: re-uploading filename `f` into bucket `b` (quota
far from exhausted) reports `AlreadyExists` and leaves the state unchanged. -/
theorem c3_duplicate_upload_witness :
    upload_file smallState (str "u1") (str "b") (str "f") [3, 3, 3] =
      (smallState, some ApiError.alreadyExists) :=
  c3_duplicate_upload smallState (str "u1") (str "b") (str "f") [3, 3, 3]
    { id := 0, name := str "b", userId := str "u1", fileCount := 1,
      totalSize := 2 }
    { id := 1, filename := str "f", bucketId := 0, bucketName := str "b",
      userId := str "u1", size := 2,
      filePath := filePathOf (str "u1") (str "b") (str "f") }
    (by decide) (by decide) (by decide) (by decide)

/-! ## Claim C1: invariant preservation -/

theorem pairwise_nameUser_eq {l : List BucketDoc}
    (hp : l.Pairwise fun a b => ¬ (a.name = b.name ∧ a.userId = b.userId))
    {a b : BucketDoc} (ha : a ∈ l) (hb : b ∈ l)
    (hn : a.name = b.name) (hu : a.userId = b.userId) : a = b := by
  by_contra hne
  have hsym : Symmetric
      (fun a b : BucketDoc => ¬ (a.name = b.name ∧ a.userId = b.userId)) :=
    fun x y hxy h => hxy ⟨h.1.symm, h.2.symm⟩
  exact hp.forall hsym ha hb hne ⟨hn, hu⟩

theorem create_bucket_invalid₁_eq {s : SysState} {u n : Str}
    (h1 : n.isEmpty = true ∨ (pyStrip n).isEmpty = true) :
    create_bucket s u n = (s, some ApiError.invalidName) := by
  unfold create_bucket
  rw [if_pos h1]

theorem create_bucket_invalid₂_eq {s : SysState} {u n : Str}
    (h1 : ¬ (n.isEmpty = true ∨ (pyStrip n).isEmpty = true))
    (h2 : ¬ pyIsalnum (stripHyphensUnderscores n) = true) :
    create_bucket s u n = (s, some ApiError.invalidName) := by
  unfold create_bucket
  rw [if_neg h1, if_pos (by simpa using h2)]

theorem create_bucket_exists_eq {s : SysState} {u n : Str} {b : BucketDoc}
    (h1 : ¬ (n.isEmpty = true ∨ (pyStrip n).isEmpty = true))
    (h2 : pyIsalnum (stripHyphensUnderscores n) = true)
    (hfb : findBucket s u n = some b) :
    create_bucket s u n = (s, some ApiError.alreadyExists) := by
  unfold create_bucket
  rw [if_neg h1, if_neg (by simpa using h2)]
  simp only [hfb]

theorem create_bucket_success_eq {s : SysState} {u n : Str}
    (h1 : ¬ (n.isEmpty = true ∨ (pyStrip n).isEmpty = true))
    (h2 : pyIsalnum (stripHyphensUnderscores n) = true)
    (hfb : findBucket s u n = none)
    (h3 : bucketPathOf u n ∉ s.dirs) :
    create_bucket s u n =
      ({ s with
          dirs := bucketPathOf u n :: s.dirs,
          buckets := { id := s.nextId, name := n, userId := u,
                       fileCount := 0, totalSize := 0 } :: s.buckets,
          nextId := s.nextId + 1 }, none) := by
  unfold create_bucket
  rw [if_neg h1, if_neg (by simpa using h2)]
  simp only [hfb]
  rw [if_neg h3]

theorem engineInv_create {s : SysState} {u n : Str}
    (hinv : EngineInv s) (hu : GoodSeg u) :
    EngineInv (create_bucket s u n).1 := by
  obtain ⟨hidB, hidF, hpairB, hpairF, hpairName, hbseg, hown, hfpath, hblob,
    hpairPath, hdirs, hagg⟩ := hinv
  by_cases h1 : (n.isEmpty = true ∨ (pyStrip n).isEmpty = true)
  · rw [create_bucket_invalid₁_eq h1]
    exact ⟨hidB, hidF, hpairB, hpairF, hpairName, hbseg, hown, hfpath, hblob,
      hpairPath, hdirs, hagg⟩
  · by_cases h2 : pyIsalnum (stripHyphensUnderscores n) = true
    · have hn : GoodSeg n := validator_goodSeg h2
      cases hfb : findBucket s u n with
      | some b =>
        rw [create_bucket_exists_eq h1 h2 hfb]
        exact ⟨hidB, hidF, hpairB, hpairF, hpairName, hbseg, hown, hfpath,
          hblob, hpairPath, hdirs, hagg⟩
      | none =>
        have hnone := hfb
        unfold findBucket at hnone
        rw [List.find?_eq_none] at hnone
        by_cases h3 : bucketPathOf u n ∈ s.dirs
        · -- unreachable: every directory is backed by a bucket document,
          -- which the duplicate check would have found
          exfalso
          obtain ⟨b0, hb0mem, hb0path⟩ := hdirs _ h3
          obtain ⟨hueq, hneq⟩ := bucketPathOf_inj hu hn (hbseg b0 hb0mem).1
            (hbseg b0 hb0mem).2 hb0path
          exact hnone b0 hb0mem (by simp [← hueq, ← hneq])
        · rw [create_bucket_success_eq h1 h2 hfb h3]
          refine ⟨?_, ?_, ?_, ?_, ?_, ?_, ?_, ?_, ?_, ?_, ?_, ?_⟩
          · intro b hb
            rcases List.mem_cons.mp hb with rfl | hb'
            · exact Nat.lt_succ_self _
            · exact Nat.lt_succ_of_lt (hidB b hb')
          · intro f hf
            exact Nat.lt_succ_of_lt (hidF f hf)
          · refine List.pairwise_cons.mpr ⟨?_, hpairB⟩
            intro b hb
            exact fun heq => absurd heq.symm (Nat.ne_of_lt (hidB b hb))
          · exact hpairF
          · refine List.pairwise_cons.mpr ⟨?_, hpairName⟩
            intro b hb hcontra
            exact hnone b hb (by simp [hcontra.1.symm, hcontra.2.symm])
          · intro b hb
            rcases List.mem_cons.mp hb with rfl | hb'
            · exact ⟨hu, hn⟩
            · exact hbseg b hb'
          · intro f hf
            obtain ⟨b0, hb0mem, hb0⟩ := hown f hf
            exact ⟨b0, List.mem_cons_of_mem _ hb0mem, hb0⟩
          · exact hfpath
          · exact hblob
          · exact hpairPath
          · intro d hd
            rcases List.mem_cons.mp hd with rfl | hd'
            · exact ⟨_, List.mem_cons_self _ _, rfl⟩
            · obtain ⟨b0, hb0mem, hb0⟩ := hdirs d hd'
              exact ⟨b0, List.mem_cons_of_mem _ hb0mem, hb0⟩
          · intro b hb
            rcases List.mem_cons.mp hb with rfl | hb'
            · constructor
              · show (0 : Int) = _
                have hempty : filesOfBucket
                    ({ s with
                        dirs := bucketPathOf u n :: s.dirs,
                        buckets := { id := s.nextId, name := n, userId := u,
                                     fileCount := 0, totalSize := 0 } ::
                          s.buckets,
                        nextId := s.nextId + 1 } : SysState) s.nextId = [] := by
                  unfold filesOfBucket
                  rw [List.filter_eq_nil_iff]
                  intro f hf
                  obtain ⟨b0, hb0mem, hb0id, -, -⟩ := hown f hf
                  simp only [decide_eq_true_eq]
                  rw [← hb0id]
                  exact Nat.ne_of_lt (hidB b0 hb0mem)
                rw [hempty]
                rfl
              · show (0 : Int) = _
                have hempty : filesOfBucket
                    ({ s with
                        dirs := bucketPathOf u n :: s.dirs,
                        buckets := { id := s.nextId, name := n, userId := u,
                                     fileCount := 0, totalSize := 0 } ::
                          s.buckets,
                        nextId := s.nextId + 1 } : SysState) s.nextId = [] := by
                  unfold filesOfBucket
                  rw [List.filter_eq_nil_iff]
                  intro f hf
                  obtain ⟨b0, hb0mem, hb0id, -, -⟩ := hown f hf
                  simp only [decide_eq_true_eq]
                  rw [← hb0id]
                  exact Nat.ne_of_lt (hidB b0 hb0mem)
                rw [hempty]
                rfl
            · exact hagg b hb'
    · rw [create_bucket_invalid₂_eq h1 h2]
      exact ⟨hidB, hidF, hpairB, hpairF, hpairName, hbseg, hown, hfpath,
        hblob, hpairPath, hdirs, hagg⟩

theorem engineInv_upload {s : SysState} {u bn fn : Str} {content : Bytes}
    (hinv : EngineInv s) (hfn : '/' ∉ fn) :
    EngineInv (upload_file s u bn fn content).1 := by
  obtain ⟨hidB, hidF, hpairB, hpairF, hpairName, hbseg, hown, hfpath, hblob,
    hpairPath, hdirs, hagg⟩ := hinv
  cases hfb : findBucket s u bn with
  | none =>
    unfold upload_file
    rw [hfb]
    exact ⟨hidB, hidF, hpairB, hpairF, hpairName, hbseg, hown, hfpath, hblob,
      hpairPath, hdirs, hagg⟩
  | some bucket =>
    by_cases hq : check_storage_limit s u content.length = true
    · by_cases hnew : blobLookup s.blobs (filePathOf u bn fn) = none
      · -- success
        obtain ⟨hbmem, hbname, hbuser⟩ := findBucket_spec hfb
        rw [upload_success_eq hfb hq hnew]
        have hnewpath : ∀ f ∈ s.files, f.filePath ≠ filePathOf u bn fn := by
          intro f hf heq
          have := hblob f hf
          rw [heq, hnew] at this
          simp at this
        refine ⟨?_, ?_, ?_, ?_, ?_, ?_, ?_, ?_, ?_, ?_, ?_, ?_⟩
        · intro b hb
          obtain ⟨b0, hb0mem, rfl⟩ := List.mem_map.mp hb
          have : b0.id < s.nextId := hidB b0 hb0mem
          by_cases hb0id : b0.id = bucket.id <;>
            simp [hb0id] <;> omega
        · intro f hf
          rcases List.mem_cons.mp hf with rfl | hf'
          · exact Nat.lt_succ_self _
          · exact Nat.lt_succ_of_lt (hidF f hf')
        · rw [List.pairwise_map]
          refine hpairB.imp ?_
          intro a b hab
          by_cases ha : a.id = bucket.id <;> by_cases hb2 : b.id = bucket.id <;>
            simpa [ha, hb2] using hab
        · refine List.pairwise_cons.mpr ⟨?_, hpairF⟩
          intro f hf
          exact fun heq => absurd heq.symm (Nat.ne_of_lt (hidF f hf))
        · rw [List.pairwise_map]
          refine hpairName.imp ?_
          intro a b hab
          by_cases ha : a.id = bucket.id <;> by_cases hb2 : b.id = bucket.id <;>
            simpa [ha, hb2] using hab
        · intro b hb
          obtain ⟨b0, hb0mem, rfl⟩ := List.mem_map.mp hb
          have := hbseg b0 hb0mem
          by_cases hb0id : b0.id = bucket.id <;> simp [hb0id] <;> exact this
        · intro f hf
          rcases List.mem_cons.mp hf with rfl | hf'
          · refine ⟨(if bucket.id = bucket.id then
              { bucket with fileCount := bucket.fileCount + 1,
                            totalSize := bucket.totalSize +
                              (content.length : Int) }
              else bucket), List.mem_map_of_mem _ hbmem, ?_⟩
            rw [if_pos rfl]
            exact ⟨rfl, hbname, hbuser⟩
          · obtain ⟨b0, hb0mem, hb0id, hb0name, hb0user⟩ := hown f hf'
            refine ⟨(if b0.id = bucket.id then
              { b0 with fileCount := b0.fileCount + 1,
                        totalSize := b0.totalSize + (content.length : Int) }
              else b0), List.mem_map_of_mem _ hb0mem, ?_⟩
            by_cases hb0 : b0.id = bucket.id
            · rw [if_pos hb0]
              exact ⟨hb0id, hb0name, hb0user⟩
            · rw [if_neg hb0]
              exact ⟨hb0id, hb0name, hb0user⟩
        · intro f hf
          rcases List.mem_cons.mp hf with rfl | hf'
          · exact ⟨rfl, hfn⟩
          · exact hfpath f hf'
        · intro f hf
          rcases List.mem_cons.mp hf with rfl | hf'
          · show (blobLookup (blobWrite s.blobs (filePathOf u bn fn) content)
              (filePathOf u bn fn)).map _ = _
            rw [blobLookup_write_self]
            rfl
          · show (blobLookup (blobWrite s.blobs (filePathOf u bn fn) content)
              f.filePath).map _ = _
            rw [blobLookup_write_ne _ _ (hnewpath f hf')]
            exact hblob f hf'
        · refine List.pairwise_cons.mpr ⟨?_, hpairPath⟩
          intro f hf
          exact fun heq => hnewpath f hf heq.symm
        · intro d hd
          obtain ⟨b0, hb0mem, hb0⟩ := hdirs d hd
          refine ⟨(if b0.id = bucket.id then
            { b0 with fileCount := b0.fileCount + 1,
                      totalSize := b0.totalSize + (content.length : Int) }
            else b0), List.mem_map_of_mem _ hb0mem, ?_⟩
          by_cases h : b0.id = bucket.id <;> simpa [h] using hb0
        · intro b hb
          obtain ⟨b0, hb0mem, rfl⟩ := List.mem_map.mp hb
          by_cases hb0id : b0.id = bucket.id
          · have hbb : b0 = bucket :=
              pairwise_key_eq BucketDoc.id hpairB hb0mem hbmem hb0id
            subst hbb
            rw [if_pos rfl]
            obtain ⟨hcount, hsum⟩ := hagg b0 hb0mem
            have hfilter : filesOfBucket
                ({ s with
                    blobs := blobWrite s.blobs (filePathOf u bn fn) content,
                    files := { id := s.nextId, filename := fn,
                               bucketId := b0.id, bucketName := bn,
                               userId := u, size := content.length,
                               filePath := filePathOf u bn fn } :: s.files,
                    buckets := s.buckets.map fun b =>
                      if b.id = b0.id then
                        { b with fileCount := b.fileCount + 1,
                                 totalSize := b.totalSize +
                                   (content.length : Int) }
                      else b,
                    nextId := s.nextId + 1 } : SysState)
                ({ b0 with fileCount := b0.fileCount + 1,
                           totalSize := b0.totalSize +
                             (content.length : Int) } : BucketDoc).id =
                { id := s.nextId, filename := fn, bucketId := b0.id,
                  bucketName := bn, userId := u, size := content.length,
                  filePath := filePathOf u bn fn } :: filesOfBucket s b0.id := by
              unfold filesOfBucket
              exact List.filter_cons_of_pos (by simp)
            rw [hfilter]
            constructor
            · show b0.fileCount + 1 = _
              rw [List.length_cons, hcount]
              push_cast
              ring
            · show b0.totalSize + (content.length : Int) = _
              rw [List.map_cons, List.sum_cons, hsum]
              push_cast
              ring
          · rw [if_neg hb0id]
            obtain ⟨hcount, hsum⟩ := hagg b0 hb0mem
            have hfilter : filesOfBucket
                ({ s with
                    blobs := blobWrite s.blobs (filePathOf u bn fn) content,
                    files := { id := s.nextId, filename := fn,
                               bucketId := bucket.id, bucketName := bn,
                               userId := u, size := content.length,
                               filePath := filePathOf u bn fn } :: s.files,
                    buckets := s.buckets.map fun b =>
                      if b.id = bucket.id then
                        { b with fileCount := b.fileCount + 1,
                                 totalSize := b.totalSize +
                                   (content.length : Int) }
                      else b,
                    nextId := s.nextId + 1 } : SysState) b0.id =
                filesOfBucket s b0.id := by
              unfold filesOfBucket
              exact List.filter_cons_of_neg
                (by simp; exact fun h => hb0id h.symm)
            rw [hfilter]
            exact ⟨hcount, hsum⟩
      · have heq : upload_file s u bn fn content =
            (s, some ApiError.alreadyExists) := by
          unfold upload_file
          rw [hfb]
          simp [hq, Option.isSome_iff_ne_none, hnew]
        rw [heq]
        exact ⟨hidB, hidF, hpairB, hpairF, hpairName, hbseg, hown, hfpath,
          hblob, hpairPath, hdirs, hagg⟩
    · have heq : upload_file s u bn fn content =
          (s, some ApiError.quotaExceeded) := by
        unfold upload_file
        rw [hfb]
        simp [hq]
      rw [heq]
      exact ⟨hidB, hidF, hpairB, hpairF, hpairName, hbseg, hown, hfpath,
        hblob, hpairPath, hdirs, hagg⟩

theorem engineInv_deleteFile {s : SysState} {u bn fn : Str}
    (hinv : EngineInv s) :
    EngineInv (delete_file s u bn fn).1 := by
  obtain ⟨hidB, hidF, hpairB, hpairF, hpairName, hbseg, hown, hfpath, hblob,
    hpairPath, hdirs, hagg⟩ := hinv
  cases hfb : findBucket s u bn with
  | none =>
    have heq : delete_file s u bn fn = (s, some ApiError.notFound) := by
      unfold delete_file
      simp only [hfb]
    rw [heq]
    exact ⟨hidB, hidF, hpairB, hpairF, hpairName, hbseg, hown, hfpath, hblob,
      hpairPath, hdirs, hagg⟩
  | some bucket =>
    cases hff : findFile s bucket.id fn with
    | none =>
      have heq : delete_file s u bn fn = (s, some ApiError.notFound) := by
        unfold delete_file
        simp only [hfb, hff]
      rw [heq]
      exact ⟨hidB, hidF, hpairB, hpairF, hpairName, hbseg, hown, hfpath,
        hblob, hpairPath, hdirs, hagg⟩
    | some fd =>
      obtain ⟨hfdmem, hfdbid, hfdfn⟩ := findFile_spec hff
      obtain ⟨hbmem, hbname, hbuser⟩ := findBucket_spec hfb
      obtain ⟨bs, hbs, hlen⟩ := Option.map_eq_some'.mp (hblob fd hfdmem)
      have hms : measuredSize s fd = fd.size := by
        unfold measuredSize
        rw [hbs]
        exact hlen
      obtain ⟨l₁, l₂, hsplit, herase, hneid⟩ :=
        eraseP_of_uniq_key FileDoc.id hpairF hfdmem
      have hsub : (l₁ ++ l₂).Sublist s.files := by
        rw [hsplit]
        exact List.Sublist.append_left (List.sublist_cons_self fd l₂) l₁
      have hmem' : ∀ x ∈ l₁ ++ l₂, x ∈ s.files := fun x hx => hsub.subset hx
      have hPne : ∀ x ∈ l₁ ++ l₂, x.filePath ≠ fd.filePath := by
        have hp := hpairPath
        rw [hsplit, List.pairwise_append] at hp
        intro x hx
        rcases List.mem_append.mp hx with hx1 | hx2
        · exact hp.2.2 x hx1 fd (List.mem_cons_self _ _)
        · exact fun heq => (List.pairwise_cons.mp hp.2.1).1 x hx2 heq.symm
      rw [delete_file_measured_eq hfb hff]
      simp only [hbs, herase, hms]
      refine ⟨?_, ?_, ?_, ?_, ?_, ?_, ?_, ?_, ?_, ?_, ?_, ?_⟩
      · intro b hb
        obtain ⟨b0, hb0mem, rfl⟩ := List.mem_map.mp hb
        have := hidB b0 hb0mem
        by_cases hb0id : b0.id = bucket.id <;> simpa [hb0id] using this
      · intro f hf
        exact hidF f (hmem' f hf)
      · rw [List.pairwise_map]
        refine hpairB.imp ?_
        intro a b hab
        by_cases ha : a.id = bucket.id <;> by_cases hb2 : b.id = bucket.id <;>
          simpa [ha, hb2] using hab
      · exact hpairF.sublist hsub
      · rw [List.pairwise_map]
        refine hpairName.imp ?_
        intro a b hab
        by_cases ha : a.id = bucket.id <;> by_cases hb2 : b.id = bucket.id <;>
          simpa [ha, hb2] using hab
      · intro b hb
        obtain ⟨b0, hb0mem, rfl⟩ := List.mem_map.mp hb
        have := hbseg b0 hb0mem
        by_cases hb0id : b0.id = bucket.id <;> simpa [hb0id] using this
      · intro f hf
        obtain ⟨b0, hb0mem, hb0id, hb0name, hb0user⟩ := hown f (hmem' f hf)
        refine ⟨(if b0.id = bucket.id then
          { b0 with fileCount := b0.fileCount - 1,
                    totalSize := b0.totalSize - (fd.size : Int) }
          else b0), List.mem_map_of_mem _ hb0mem, ?_⟩
        by_cases hb0 : b0.id = bucket.id
        · rw [if_pos hb0]
          exact ⟨hb0id, hb0name, hb0user⟩
        · rw [if_neg hb0]
          exact ⟨hb0id, hb0name, hb0user⟩
      · intro f hf
        exact hfpath f (hmem' f hf)
      · intro f hf
        show (blobLookup (blobRemove s.blobs fd.filePath) f.filePath).map _ = _
        rw [blobLookup_remove_ne _ (hPne f hf)]
        exact hblob f (hmem' f hf)
      · exact hpairPath.sublist hsub
      · intro d hd
        obtain ⟨b0, hb0mem, hb0⟩ := hdirs d hd
        refine ⟨(if b0.id = bucket.id then
          { b0 with fileCount := b0.fileCount - 1,
                    totalSize := b0.totalSize - (fd.size : Int) }
          else b0), List.mem_map_of_mem _ hb0mem, ?_⟩
        by_cases h : b0.id = bucket.id <;> simpa [h] using hb0
      · intro b hb
        obtain ⟨b0, hb0mem, rfl⟩ := List.mem_map.mp hb
        obtain ⟨hcount, hsum⟩ := hagg b0 hb0mem
        by_cases hb0id : b0.id = bucket.id
        · have hbb : b0 = bucket :=
            pairwise_key_eq BucketDoc.id hpairB hb0mem hbmem hb0id
          subst hbb
          rw [if_pos rfl]
          have hOld : filesOfBucket s b0.id =
              l₁.filter (fun f => decide (f.bucketId = b0.id)) ++ fd ::
              l₂.filter (fun f => decide (f.bucketId = b0.id)) := by
            unfold filesOfBucket
            rw [hsplit, List.filter_append]
            congr 1
            simp [List.filter_cons, hfdbid]
          rw [hOld] at hcount hsum
          constructor
          · show b0.fileCount - 1 = _
            have hNew : filesOfBucket
                ({ s with
                    blobs := blobRemove s.blobs fd.filePath,
                    files := l₁ ++ l₂,
                    buckets := s.buckets.map fun b =>
                      if b.id = b0.id then
                        { b with fileCount := b.fileCount - 1,
                                 totalSize := b.totalSize - (fd.size : Int) }
                      else b } : SysState) b0.id =
                l₁.filter (fun f => decide (f.bucketId = b0.id)) ++
                l₂.filter (fun f => decide (f.bucketId = b0.id)) := by
              unfold filesOfBucket
              rw [List.filter_append]
            rw [hNew]
            simp only [List.length_append, List.length_cons] at hcount ⊢
            omega
          · show b0.totalSize - (fd.size : Int) = _
            have hNew : filesOfBucket
                ({ s with
                    blobs := blobRemove s.blobs fd.filePath,
                    files := l₁ ++ l₂,
                    buckets := s.buckets.map fun b =>
                      if b.id = b0.id then
                        { b with fileCount := b.fileCount - 1,
                                 totalSize := b.totalSize - (fd.size : Int) }
                      else b } : SysState) b0.id =
                l₁.filter (fun f => decide (f.bucketId = b0.id)) ++
                l₂.filter (fun f => decide (f.bucketId = b0.id)) := by
              unfold filesOfBucket
              rw [List.filter_append]
            rw [hNew]
            simp only [List.map_append, List.map_cons, List.sum_append,
              List.sum_cons] at hsum ⊢
            omega
        · rw [if_neg hb0id]
          have hne2 : ¬ bucket.id = b0.id := fun h => hb0id h.symm
          have hEq : filesOfBucket
              ({ s with
                  blobs := blobRemove s.blobs fd.filePath,
                  files := l₁ ++ l₂,
                  buckets := s.buckets.map fun b =>
                    if b.id = bucket.id then
                      { b with fileCount := b.fileCount - 1,
                               totalSize := b.totalSize - (fd.size : Int) }
                    else b } : SysState) b0.id = filesOfBucket s b0.id := by
            unfold filesOfBucket
            rw [hsplit, List.filter_append, List.filter_append]
            congr 1
            simp [List.filter_cons, hfdbid, hne2]
          rw [hEq]
          exact ⟨hcount, hsum⟩

theorem engineInv_deleteBucket {s : SysState} {u bn : Str}
    (hinv : EngineInv s) :
    EngineInv (delete_bucket s u bn).1 := by
  obtain ⟨hidB, hidF, hpairB, hpairF, hpairName, hbseg, hown, hfpath, hblob,
    hpairPath, hdirs, hagg⟩ := hinv
  cases hfb : findBucket s u bn with
  | none =>
    have heq : delete_bucket s u bn = (s, some ApiError.notFound) := by
      unfold delete_bucket
      simp only [hfb]
    rw [heq]
    exact ⟨hidB, hidF, hpairB, hpairF, hpairName, hbseg, hown, hfpath, hblob,
      hpairPath, hdirs, hagg⟩
  | some bucket =>
    obtain ⟨hbmem, hbname, hbuser⟩ := findBucket_spec hfb
    have hbu : GoodSeg u := hbuser ▸ (hbseg bucket hbmem).1
    have hbn : GoodSeg bn := hbname ▸ (hbseg bucket hbmem).2
    obtain ⟨l₁, l₂, hsplit, herase, hneid⟩ :=
      eraseP_of_uniq_key BucketDoc.id hpairB hbmem
    have hsubB : (l₁ ++ l₂).Sublist s.buckets := by
      rw [hsplit]
      exact List.Sublist.append_left (List.sublist_cons_self bucket l₂) l₁
    have hmemB' : ∀ x ∈ l₁ ++ l₂, x ∈ s.buckets := fun x hx => hsubB.subset hx
    have hmemB2 : ∀ b0 ∈ s.buckets, b0 ≠ bucket → b0 ∈ l₁ ++ l₂ := by
      intro b0 hb0 hne
      rw [hsplit] at hb0
      rcases List.mem_append.mp hb0 with h | h
      · exact List.mem_append.mpr (Or.inl h)
      · rcases List.mem_cons.mp h with rfl | h2
        · exact absurd rfl hne
        · exact List.mem_append.mpr (Or.inr h2)
    rw [delete_bucket_eq hfb]
    simp only [deleteBucketDoc, deleteBucketBlobs, deleteBucketFiles, herase]
    refine ⟨?_, ?_, ?_, ?_, ?_, ?_, ?_, ?_, ?_, ?_, ?_, ?_⟩
    · intro b hb
      exact hidB b (hmemB' b hb)
    · intro f hf
      exact hidF f (List.mem_filter.mp hf).1
    · exact hpairB.sublist hsubB
    · exact hpairF.sublist (List.filter_sublist _)
    · exact hpairName.sublist hsubB
    · intro b hb
      exact hbseg b (hmemB' b hb)
    · intro f hf
      obtain ⟨hfmem, hfpred⟩ := List.mem_filter.mp hf
      have hfnb : ¬ f.bucketId = bucket.id := by simpa using hfpred
      obtain ⟨b0, hb0mem, hb0id, hb0name, hb0user⟩ := hown f hfmem
      refine ⟨b0, hmemB2 b0 hb0mem ?_, hb0id, hb0name, hb0user⟩
      intro heq
      exact hfnb (by rw [← hb0id, heq])
    · intro f hf
      exact hfpath f (List.mem_filter.mp hf).1
    · intro f hf
      obtain ⟨hfmem, hfpred⟩ := List.mem_filter.mp hf
      have hfnb : ¬ f.bucketId = bucket.id := by simpa using hfpred
      have hnotunder : isUnder (bucketPathOf u bn) f.filePath = false := by
        by_contra hcon
        have hun : isUnder (bucketPathOf u bn) f.filePath = true := by
          simpa using hcon
        obtain ⟨b0, hb0mem, hb0id, hb0name, hb0user⟩ := hown f hfmem
        have hfu : GoodSeg f.userId := hb0user ▸ (hbseg b0 hb0mem).1
        have hfn2 : GoodSeg f.bucketName := hb0name ▸ (hbseg b0 hb0mem).2
        rw [(hfpath f hfmem).1] at hun
        obtain ⟨hueq, hneq⟩ := isUnder_bucketPath_filePath hbu hbn hfu hfn2
          (hfpath f hfmem).2 hun
        have hb0eq : b0 = bucket := by
          refine pairwise_nameUser_eq hpairName hb0mem hbmem ?_ ?_
          · rw [hb0name, ← hneq, hbname]
          · rw [hb0user, ← hueq, hbuser]
        exact hfnb (by rw [← hb0id, hb0eq])
      show (blobLookup (rmtreeBlobs s.blobs (bucketPathOf u bn))
        f.filePath).map _ = _
      rw [blobLookup_rmtree_not_under _ hnotunder]
      exact hblob f hfmem
    · exact hpairPath.sublist (List.filter_sublist _)
    · intro d hd
      obtain ⟨hdmem, hdpred⟩ := List.mem_filter.mp hd
      have hdne : ¬ (d = bucketPathOf u bn ∨
          isUnder (bucketPathOf u bn) d = true) := by simpa using hdpred
      obtain ⟨b0, hb0mem, hb0⟩ := hdirs d hdmem
      refine ⟨b0, hmemB2 b0 hb0mem ?_, hb0⟩
      rintro rfl
      exact hdne (Or.inl (by rw [hb0, hbname, hbuser]))
    · intro b hb
      have hbid : b.id ≠ bucket.id := hneid b hb
      have hEq : filesOfBucket
          ({ s with
              files := s.files.filter fun f => ¬ f.bucketId = bucket.id,
              blobs := rmtreeBlobs s.blobs (bucketPathOf u bn),
              dirs := rmtreeDirs s.dirs (bucketPathOf u bn),
              buckets := l₁ ++ l₂ } : SysState) b.id =
          filesOfBucket s b.id := by
        unfold filesOfBucket
        rw [List.filter_filter]
        refine List.filter_congr ?_
        intro f hfmem
        by_cases hfb2 : f.bucketId = b.id
        · have : ¬ f.bucketId = bucket.id := by
            rw [hfb2]; exact hbid
          simp [hfb2, this, hbid]
        · simp [hfb2]
      rw [hEq]
      exact hagg b (hmemB' b hb)

theorem engineInv_init : EngineInv initState := by decide

theorem engineInv_step {s : SysState} {op : Op} (hinv : EngineInv s)
    (hop : OpBenign op) : EngineInv (stepOp s op) := by
  cases op with
  | createBucket u n => exact engineInv_create hinv hop
  | uploadFile u bn fn c => exact engineInv_upload hinv hop
  | deleteFile u bn fn => exact engineInv_deleteFile hinv
  | deleteBucket u bn => exact engineInv_deleteBucket hinv

theorem engineInv_foldl :
    ∀ (ops : List Op) (s : SysState), EngineInv s →
      (∀ op ∈ ops, OpBenign op) → EngineInv (ops.foldl stepOp s)
  | [], _, hs, _ => hs
  | op :: rest, s, hs, h => by
    rw [List.foldl_cons]
    exact engineInv_foldl rest _
      (engineInv_step hs (h op (List.mem_cons_self _ _)))
      (fun o ho => h o (List.mem_cons_of_mem _ ho))

theorem engineInv_runOps (ops : List Op) (h : ∀ op ∈ ops, OpBenign op) :
    EngineInv (runOps ops) :=
  engineInv_foldl ops initState engineInv_init h

/-- Claim C1, counterexample: a concrete 7-operation sequence (owner ids
benign, but one filename is the unsanitized path-traversal string
`/app/storage/u1/p/x`) after which bucket `m` caches `file_count = 0` and
`total_size = -2` while referencing zero FileRecords: the cached aggregates
diverge from the recounted values, so invariant I1 fails after a completed
operation of the claimed kinds. -/
theorem c1_counterexample :
    ((runOps c1Ops).buckets.map fun b => (b.id, b.fileCount, b.totalSize)) =
      [(3, 1, 7), (1, 0, -2)] ∧
    ¬ AggregatesOk (runOps c1Ops) := by decide

/-- Claim C1 (amended): restricted to benign inputs — owner ids that are
proper path segments and filenames free of the path separator, neither of
which the code enforces — after any sequence of CreateBucket, UploadFile,
DeleteFile, and DeleteBucket operations from a fresh deployment, every
bucket's cached `file_count` equals the number of FileRecords referencing
it and its `total_size` equals the sum of their sizes (spec invariant I1;
each prefix of a sequence being itself a sequence, the invariant holds
after every operation). -/
theorem c1_aggregates_invariant (ops : List Op)
    (h : ∀ op ∈ ops, OpBenign op) : AggregatesOk (runOps ops) :=
  (engineInv_runOps ops h).2.2.2.2.2.2.2.2.2.2.2

/-- Claim C1, witness: the invariant holds after a concrete mixed workload
of creates, uploads, a file deletion and a bucket deletion. -/
theorem c1_aggregates_invariant_witness :
    (∀ op ∈ c1WitnessOps, OpBenign op) ∧ AggregatesOk (runOps c1WitnessOps) :=
  ⟨by decide, c1_aggregates_invariant c1WitnessOps (by decide)⟩
